import Mathlib

/-!
Template resolution and document assembly of the skill `xingxin-test-doc`.

A shallow embedding of `skills/xingxin-test-doc/scripts/generate.js`:
`loadTemplate`, `getDefaultItems` and the table, metadata and filename parts of
`createDocument`, together with the pieces of the JavaScript host they call
(`String.prototype.match` for the two template patterns, `String.prototype.trim`,
`JSON.parse`, property access and truthiness).

Conventions.
* Text read from disk or from the command line is a list of Unicode characters.
* Strings produced by `JSON.parse` are lists of UTF-16 code units, because a JSON
  escape may denote a lone surrogate.
* Two parts of the host are parameters, and every theorem holds for every value
  of them: `toUpperCase`, the Unicode upper-casing of non-ASCII characters used
  by the `i` flag of the patterns, and `operatorPattern`, what the host makes of
  a template name that contains pattern operators.
-/

namespace XingxinTestDoc

/-! ## JavaScript values -/

/-- A JavaScript string as its UTF-16 code units. -/
abbrev JsString := List Nat

/-- UTF-16 encoding of a list of characters. -/
def utf16 : List Char → JsString
  | [] => []
  | c :: cs =>
    if c.toNat < 0x10000 then c.toNat :: utf16 cs
    else (0xD800 + (c.toNat - 0x10000) / 0x400) ::
         (0xDC00 + (c.toNat - 0x10000) % 0x400) :: utf16 cs

/-- The JavaScript string with the text of a Lean string. -/
def js (s : String) : JsString := utf16 s.toList

/-- Values that `JSON.parse` can build, and `undefined`.
A number keeps its decimal value exactly: sign, digits and power of ten. -/
inductive JsVal where
  | undefined
  | null
  | bool (b : Bool)
  | num (negative : Bool) (digits : Nat) (exp10 : Int)
  | str (s : JsString)
  | arr (xs : List JsVal)
  | obj (props : List (JsString × JsVal))

namespace JsVal

/-- Whether the decimal `digits * 10 ^ exp10` rounds to the double zero, that is
whether it is at most `2 ^ (-1075)`, half of the least positive double. -/
def roundsToZero (digits : Nat) (exp10 : Int) : Bool :=
  if 0 ≤ exp10 then digits == 0
  else decide (digits * 2 ^ 1075 ≤ 10 ^ (-exp10).toNat)

/-- The abstract operation ToBoolean. -/
def truthy : JsVal → Bool
  | undefined => false
  | null => false
  | bool b => b
  | num _ d e => !roundsToZero d e
  | str s => !s.isEmpty
  | arr _ => true
  | obj _ => true

/-- Value of the last property named `key` in a property list, since a later
duplicate key overwrites an earlier one in `JSON.parse`. -/
def lookup (key : JsString) : List (JsString × JsVal) → Option JsVal
  | [] => none
  | (k, v) :: rest =>
    match lookup key rest with
    | some w => some w
    | none => if k = key then some v else none

/-- Property read `v[key]` for a key that no built-in prototype defines (here
`items`, `function`, `points`): `none` is the TypeError thrown on `null` and
`undefined`, and a missing property reads as `undefined`. -/
def getProp (v : JsVal) (key : JsString) : Option JsVal :=
  match v with
  | undefined => none
  | null => none
  | obj props => some ((lookup key props).getD undefined)
  | _ => some undefined

end JsVal

/-! ## Case-insensitive search: the two template patterns -/

/-- Upper case of an ASCII letter, other characters unchanged. -/
def asciiUpper (c : Char) : Char :=
  if 97 ≤ c.toNat ∧ c.toNat ≤ 122 then Char.ofNat (c.toNat - 32) else c

/-- The abstract operation Canonicalize of a pattern without the `u` flag.
ASCII is upper-cased directly.  A character outside the Basic Multilingual Plane
is two surrogate code units, each its own canonical form.  Any other character
goes through the host table and keeps itself when the upper case is not a single
code unit or would fall into ASCII. -/
def Canonicalize (toUpperCase : Char → List Char) (ch : Char) : Char :=
  if ch.toNat < 128 then asciiUpper ch
  else if 0x10000 ≤ ch.toNat then ch
  else
    match toUpperCase ch with
    | [cu] => if cu.toNat < 128 ∨ 0x10000 ≤ cu.toNat then ch else cu
    | _ => ch

/-- The literal `pat` matched at the start of `text` under the `i` flag; the
result is the text after the match. -/
def matchHere (toUpperCase : Char → List Char) : List Char → List Char → Option (List Char)
  | [], text => some text
  | _ :: _, [] => none
  | p :: ps, t :: ts =>
    if Canonicalize toUpperCase p = Canonicalize toUpperCase t then
      matchHere toUpperCase ps ts
    else none

/-- Leftmost match of the literal `pat` in `text` under the `i` flag: the text
skipped before the match and the text after it. -/
def search (toUpperCase : Char → List Char) (pat : List Char) :
    List Char → Option (List Char × List Char)
  | [] => (matchHere toUpperCase pat []).map fun rest => ([], rest)
  | t :: ts =>
    match matchHere toUpperCase pat (t :: ts) with
    | some rest => some ([], rest)
    | none => (search toUpperCase pat ts).map fun r => (t :: r.1, r.2)

/-- A pattern of the family `## NAME[\s\S]*?⟨fence⟩json([\s\S]*?)⟨fence⟩` with the
`i` flag, where the fence is three backticks and NAME is literal text; `heading`
is the text `## NAME`. -/
structure TemplatePattern where
  heading : List Char

/-- Result of `content.match(pattern)`: capture group 1 when there is a match.
The pattern is unanchored and both quantifiers are lazy, so the match starts at
the leftmost occurrence of the heading text, runs to the leftmost `json` fence
after it and captures up to the leftmost fence after that; if one of the three
searches fails no start position matches. -/
def TemplatePattern.exec (toUpperCase : Char → List Char) (re : TemplatePattern)
    (content : List Char) : Option (List Char) :=
  match search toUpperCase re.heading content with
  | none => none
  | some (_, afterHeading) =>
    match search toUpperCase "```json".toList afterHeading with
    | none => none
    | some (_, afterFence) =>
      match search toUpperCase "```".toList afterFence with
      | none => none
      | some (captured, _) => some captured

/-- Characters with a meaning of their own in a pattern. -/
def isPatternSpecial (c : Char) : Bool :=
  c ∈ ['^', '$', '\\', '.', '*', '+', '?', '(', ')', '[', ']', '{', '}', '|']

/-- Whether a template name is free of special characters. -/
def isLiteralName (templateName : String) : Bool :=
  templateName.toList.all fun c => !isPatternSpecial c

/-- The pattern whose heading text is `## ` followed by the name. -/
def namePattern (templateName : String) : TemplatePattern :=
  ⟨"## ".toList ++ templateName.toList⟩

/-- The pattern literal for the `default` template. -/
def defaultPattern : TemplatePattern := ⟨"## default".toList⟩

/-! ## `String.prototype.trim` -/

/-- WhiteSpace and LineTerminator code points. -/
def isJsWhiteSpace (c : Char) : Bool :=
  c.toNat ∈ [0x09, 0x0A, 0x0B, 0x0C, 0x0D, 0x20, 0xA0, 0x1680, 0x2028, 0x2029,
    0x202F, 0x205F, 0x3000, 0xFEFF] || (0x2000 ≤ c.toNat && c.toNat ≤ 0x200A)

/-- Removes white space at both ends. -/
def trim (s : List Char) : List Char :=
  ((s.dropWhile isJsWhiteSpace).reverse.dropWhile isJsWhiteSpace).reverse

/-! ## `JSON.parse` -/

namespace JSON

/-- JSON white space: space, tab, line feed, carriage return. -/
def isWs (c : Char) : Bool :=
  c == ' ' || c == '\t' || c == '\n' || c == '\r'

/-- Drops leading JSON white space. -/
def skipWs : List Char → List Char
  | [] => []
  | c :: cs => if isWs c then skipWs cs else c :: cs

/-- Value of a hexadecimal digit. -/
def hexVal (c : Char) : Option Nat :=
  if 48 ≤ c.toNat ∧ c.toNat ≤ 57 then some (c.toNat - 48)
  else if 97 ≤ c.toNat ∧ c.toNat ≤ 102 then some (c.toNat - 87)
  else if 65 ≤ c.toNat ∧ c.toNat ≤ 70 then some (c.toNat - 55)
  else none

/-- Code unit of a single-character escape. -/
def escapeUnit (c : Char) : Option Nat :=
  if c == '"' then some 0x22
  else if c == '\\' then some 0x5C
  else if c == '/' then some 0x2F
  else if c == 'b' then some 0x08
  else if c == 'f' then some 0x0C
  else if c == 'n' then some 0x0A
  else if c == 'r' then some 0x0D
  else if c == 't' then some 0x09
  else none

/-- A string after its opening quote: the code units up to the closing quote
and the text after it.  Control characters below U+0020 may not occur raw. -/
def stringBody : List Char → Option (JsString × List Char)
  | [] => none
  | c :: cs =>
    if c == '"' then some ([], cs)
    else if c == '\\' then
      match cs with
      | [] => none
      | e :: rest =>
        if e == 'u' then
          match rest with
          | a :: b :: c :: d :: rest4 =>
            match hexVal a, hexVal b, hexVal c, hexVal d with
            | some a, some b, some c, some d =>
              (stringBody rest4).map fun r => ((a * 4096 + b * 256 + c * 16 + d) :: r.1, r.2)
            | _, _, _, _ => none
          | _ => none
        else
          match escapeUnit e with
          | some u => (stringBody rest).map fun r => (u :: r.1, r.2)
          | none => none
    else if c.toNat < 0x20 then none
    else (stringBody cs).map fun r => (utf16 [c] ++ r.1, r.2)

/-- Leading decimal digits and the text after them. -/
def digitsOf : List Char → List Nat × List Char
  | [] => ([], [])
  | c :: cs =>
    if c.isDigit then ((c.toNat - 48) :: (digitsOf cs).1, (digitsOf cs).2)
    else ([], c :: cs)

/-- The number written by a list of decimal digits. -/
def natOfDigits (ds : List Nat) : Nat :=
  ds.foldl (fun n d => 10 * n + d) 0

/-- Integer part of a number: a single `0`, or digits not starting with `0`. -/
def intPart : List Char → Option (List Nat × List Char)
  | [] => none
  | c :: r =>
    if c == '0' then some ([0], r)
    else if c.isDigit then some (digitsOf (c :: r))
    else none

/-- Optional fraction: a point followed by at least one digit. -/
def fracPart : List Char → Option (List Nat × List Char)
  | '.' :: r =>
    match digitsOf r with
    | ([], _) => none
    | (fs, r1) => some (fs, r1)
  | r => some ([], r)

/-- At least one digit, read as a natural number. -/
def expDigits (r : List Char) : Option (Nat × List Char) :=
  match digitsOf r with
  | ([], _) => none
  | (ds, r1) => some (natOfDigits ds, r1)

/-- Optional exponent: `e` or `E`, an optional sign, at least one digit. -/
def expPart : List Char → Option (Int × List Char)
  | [] => some (0, [])
  | c :: r =>
    if c == 'e' || c == 'E' then
      match r with
      | '+' :: r1 => (expDigits r1).map fun p => ((p.1 : Int), p.2)
      | '-' :: r1 => (expDigits r1).map fun p => (-(p.1 : Int), p.2)
      | _ => (expDigits r).map fun p => ((p.1 : Int), p.2)
    else some (0, c :: r)

/-- A number after its optional minus sign. -/
def unsignedNumber (negative : Bool) (cs : List Char) : Option (JsVal × List Char) :=
  match intPart cs with
  | none => none
  | some (ids, r1) =>
    match fracPart r1 with
    | none => none
    | some (fs, r2) =>
      match expPart r2 with
      | none => none
      | some (e, r3) => some (.num negative (natOfDigits (ids ++ fs)) (e - fs.length), r3)

/-- A JSON number. -/
def number : List Char → Option (JsVal × List Char)
  | '-' :: r => unsignedNumber true r
  | cs => unsignedNumber false cs

/-- The three literal names. -/
def literal : List Char → Option (JsVal × List Char)
  | 'n' :: 'u' :: 'l' :: 'l' :: r => some (.null, r)
  | 't' :: 'r' :: 'u' :: 'e' :: r => some (.bool true, r)
  | 'f' :: 'a' :: 'l' :: 's' :: 'e' :: r => some (.bool false, r)
  | _ => none

mutual

/-- A JSON value with optional white space before it.  The first argument bounds
the number of nested calls; the bound `2 * length + 2` that `parse` passes is
never exhausted (`value_bound_irrelevant`), since an array or object spends two
calls per bracket and one per further element. -/
def value : Nat → List Char → Option (JsVal × List Char)
  | 0, _ => none
  | fuel + 1, cs =>
    match skipWs cs with
    | [] => none
    | c :: r =>
      if c == '"' then (stringBody r).map fun p => (.str p.1, p.2)
      else if c == '[' then
        match skipWs r with
        | ']' :: r2 => some (.arr [], r2)
        | r1 => (elements fuel r1).map fun p => (.arr p.1, p.2)
      else if c == '{' then
        match skipWs r with
        | '}' :: r2 => some (.obj [], r2)
        | r1 => (members fuel r1).map fun p => (.obj p.1, p.2)
      else if c == '-' || c.isDigit then number (c :: r)
      else literal (c :: r)

/-- The elements of a non-empty array up to and including the closing bracket. -/
def elements : Nat → List Char → Option (List JsVal × List Char)
  | 0, _ => none
  | fuel + 1, cs =>
    match value fuel cs with
    | none => none
    | some (v, r) =>
      match skipWs r with
      | ',' :: r2 => (elements fuel r2).map fun p => (v :: p.1, p.2)
      | ']' :: r2 => some ([v], r2)
      | _ => none

/-- The members of a non-empty object up to and including the closing brace. -/
def members : Nat → List Char → Option (List (JsString × JsVal) × List Char)
  | 0, _ => none
  | fuel + 1, cs =>
    match skipWs cs with
    | '"' :: r =>
      match stringBody r with
      | none => none
      | some (k, r1) =>
        match skipWs r1 with
        | ':' :: r2 =>
          match value fuel r2 with
          | none => none
          | some (v, r3) =>
            match skipWs r3 with
            | ',' :: r4 => (members fuel r4).map fun p => ((k, v) :: p.1, p.2)
            | '}' :: r4 => some ([(k, v)], r4)
            | _ => none
        | _ => none
    | _ => none

end

/-- The function `JSON.parse` on a text: `none` is the SyntaxError thrown on
malformed text, including text left over after the value. -/
def parse (text : List Char) : Option JsVal :=
  match value (2 * text.length + 2) text with
  | none => none
  | some (v, rest) => if (skipWs rest).isEmpty then some v else none

end JSON

/-! ## Template resolution: `loadTemplate` and `getDefaultItems` -/

/-- One row of the checklist: the function under test and what to verify. -/
structure ChecklistEntry where
  function : String
  points : String

/-- The object literal with the keys `function` and `points`, in this order. -/
def ChecklistEntry.toJs (e : ChecklistEntry) : JsVal :=
  .obj [(js "function", .str (js e.function)), (js "points", .str (js e.points))]

/-- The six built-in entries. -/
def defaultEntries : List ChecklistEntry :=
  [ ⟨"功能完整性测试", "验证所有声明功能是否正常工作"⟩,
    ⟨"性能测试", "测试系统响应时间、吞吐量"⟩,
    ⟨"兼容性测试", "验证与主流环境的兼容性"⟩,
    ⟨"稳定性测试", "进行长时间运行测试"⟩,
    ⟨"用户界面测试", "检查UI布局、交互逻辑"⟩,
    ⟨"数据准确性测试", "验证输入输出数据的一致性"⟩ ]

/-- The function `getDefaultItems`: the array of the six built-in entries. -/
def getDefaultItems : JsVal :=
  .arr (defaultEntries.map ChecklistEntry.toJs)

/-- How a call ends. -/
inductive Outcome (α : Type) where
  /-- normal completion with a value -/
  | returned (a : α)
  /-- an exception leaves the function -/
  | threw

/-- What `content.match(pattern)` and the first statement of the `try` block
under it make of a catalog text. -/
inductive Matched where
  /-- `match` is `null` -/
  | noMatch
  /-- there is a match, and `JSON.parse(match[1].trim())` gives this value, or
  throws when it is `none` -/
  | parsed (template : Option JsVal)

/-- The host's answer for template names with pattern operators, whose pattern
language is not written out here: `none` when `new RegExp` throws a SyntaxError
for the name, else the function from the catalog text to the result of `match`
and of `JSON.parse(match[1].trim())`.  Group 1 of such a pattern can be a group
of the name, can stay out of the match and can split a surrogate pair, so its
text is not given as characters. -/
abbrev OperatorPatterns := String → Option (String → Matched)

/-- A compiled template pattern. -/
inductive RegExp where
  /-- the pattern of a name that is literal text -/
  | literal (re : TemplatePattern)
  /-- the pattern of a name with operators, as the host runs it -/
  | operators (run : String → Matched)

/-- The constructor call `new RegExp("## " + templateName + "[\\s\\S]*?...", "i")`;
`none` is a SyntaxError.  The name is spliced into the pattern source unescaped.
A name without special characters is literal text.  A name whose only special
characters are opening parentheses leaves a group unterminated, which is a
SyntaxError.  For any other name the host decides. -/
def templatePattern (operatorPattern : OperatorPatterns) (templateName : String) :
    Option RegExp :=
  if isLiteralName templateName then some (.literal (namePattern templateName))
  else if templateName.toList.all (fun c => !isPatternSpecial c || c == '(') then none
  else (operatorPattern templateName).map .operators

/-- The call `content.match(pattern)` and, when there is a match, the value of
`JSON.parse(match[1].trim())`. -/
def RegExp.matchAndParse (toUpperCase : Char → List Char) : RegExp → String → Matched
  | .literal re, content =>
    match re.exec toUpperCase content.toList with
    | none => .noMatch
    | some captured => .parsed (JSON.parse (trim captured))
  | .operators run, content => run content

/-- The expression `template.items || getDefaultItems()`; `none` is the TypeError
of reading `items` of `null`. -/
def itemsOrDefault (template : JsVal) : Option JsVal :=
  match template.getProp (js "items") with
  | none => none
  | some items => some (if items.truthy then items else getDefaultItems)

/-- Either block `if (match) { try { ... } catch (e) { ... } }` of `loadTemplate`:
the value the block returns, or `none` when control leaves the block without a
return, because there is no match or because an exception was caught. -/
def tryBlock : Matched → Option JsVal
  | .noMatch => none
  | .parsed none => none
  | .parsed (some template) => itemsOrDefault template

/-- The `try` block on a captured text. -/
def tryItems (captured : List Char) : Option JsVal :=
  tryBlock (.parsed (JSON.parse (trim captured)))

/-- The function `loadTemplate`.  The argument `templates` is the state of the
file `references/templates.md`: `none` when it does not exist, else its text. -/
def loadTemplate (toUpperCase : Char → List Char) (operatorPattern : OperatorPatterns)
    (templates : Option String) (templateName : String) : Outcome JsVal :=
  match templates with
  | none => .returned getDefaultItems
  | some content =>
    match templatePattern operatorPattern templateName with
    | none => .threw
    | some re =>
      match tryBlock (re.matchAndParse toUpperCase content) with
      | some items => .returned items
      | none =>
        if templateName ≠ "default" then
          match tryBlock ((RegExp.literal defaultPattern).matchAndParse toUpperCase content) with
          | some items => .returned items
          | none => .returned getDefaultItems
        else .returned getDefaultItems

/-! ## The document model handed to the `docx` encoder -/

/-- The border styles the script uses. -/
inductive BorderStyle where
  | SINGLE
deriving DecidableEq

/-- The shading types the script uses. -/
inductive ShadingType where
  | CLEAR
deriving DecidableEq

/-- The width units the script uses. -/
inductive WidthType where
  | DXA
deriving DecidableEq

/-- The paragraph alignments the script uses. -/
inductive AlignmentType where
  | CENTER
deriving DecidableEq

/-- One edge of a cell border: `{ style: BorderStyle.SINGLE, size, color }`. -/
structure Border where
  style : BorderStyle
  size : Nat
  color : String
deriving DecidableEq

/-- The four edges of a cell. -/
structure Borders where
  top : Border
  bottom : Border
  left : Border
  right : Border
deriving DecidableEq

/-- A background fill: `{ fill, type: ShadingType.CLEAR }`. -/
structure Shading where
  fill : String
  type : ShadingType
deriving DecidableEq

/-- Cell margins. -/
structure Margins where
  top : Nat
  bottom : Nat
  left : Nat
  right : Nat
deriving DecidableEq

/-- A width in twentieths of a point: `{ size, type: WidthType.DXA }`. -/
structure Width where
  size : Nat
  type : WidthType
deriving DecidableEq

/-- A text run; `text` is whatever value the script passes. -/
structure TextRun where
  text : JsVal
  bold : Bool
  color : Option String
  font : String
  size : Nat

/-- A paragraph of text runs. -/
structure Paragraph where
  alignment : Option AlignmentType
  children : List TextRun

/-- A table cell. -/
structure TableCell where
  borders : Borders
  width : Width
  shading : Option Shading
  verticalAlign : Option String
  margins : Margins
  columnSpan : Option Nat
  children : List Paragraph

/-- A table row. -/
structure TableRow where
  children : List TableCell

/-- A table. -/
structure Table where
  width : Width
  columnWidths : List Nat
  rows : List TableRow

/-- The texts of the runs of a cell, in order. -/
def TableCell.texts (c : TableCell) : List JsVal :=
  (c.children.map fun p => p.children.map fun r => r.text).flatten

/-- The texts of the cells of a row, in order. -/
def TableRow.texts (r : TableRow) : List JsVal :=
  (r.children.map TableCell.texts).flatten

/-- The background fills of the cells of a row, in order. -/
def TableRow.shadings (r : TableRow) : List (Option Shading) :=
  r.children.map fun c => c.shading

/-! ## `createDocument` -/

/-- The command-line options after defaulting. -/
structure Options where
  user : String
  version : String
  product : String
  date : String
  template : String
  output : String

/-- The constant `border`. -/
def border : Border := { style := .SINGLE, size := 1, color := "666666" }

/-- The constant `borders`. -/
def borders : Borders := { top := border, bottom := border, left := border, right := border }

/-- The constant `colWidths`. -/
def colWidths : List Nat := [2800, 4560, 2000]

/-- A cell of the header row of the checklist table. -/
def headerCell (width : Nat) (title : String) : TableCell :=
  { borders := borders
    width := { size := width, type := .DXA }
    shading := some { fill := "2E5090", type := .CLEAR }
    verticalAlign := some "center"
    margins := { top := 100, bottom := 100, left := 120, right := 120 }
    columnSpan := none
    children := [{ alignment := some .CENTER
                   children := [{ text := .str (js title), bold := true, color := some "FFFFFF",
                                  font := "SimHei", size := 22 }] }] }

/-- The header row: the initial content of `tableRows`. -/
def headerRow : TableRow :=
  { children := [headerCell 2800 "测试功能点", headerCell 4560 "测试要点",
                 headerCell 2000 "测试结果"] }

/-- The text of the result cell of every entry row. -/
def resultPlaceholder : String := "□ 通过    □ 失败    □ 待测试"

/-- The fill of the cells of an entry row at an odd index. -/
def alternateFill : Shading := { fill := "F5F5F5", type := .CLEAR }

/-- A cell of an entry row. -/
def itemCell (width : Nat) (isEven : Bool) (alignment : Option AlignmentType) (text : JsVal)
    (size : Nat) : TableCell :=
  { borders := borders
    width := { size := width, type := .DXA }
    shading := if isEven then none else some alternateFill
    verticalAlign := some "center"
    margins := { top := 80, bottom := 80, left := 120, right := 120 }
    columnSpan := none
    children := [{ alignment := alignment
                   children := [{ text := text, bold := false, color := none,
                                  font := "SimSun", size := size }] }] }

/-- The row pushed by the callback of `testItems.forEach` for `item` at `index`;
`none` is the TypeError of reading a property of `null` or `undefined`. -/
def itemRow (item : JsVal) (index : Nat) : Option TableRow :=
  let isEven : Bool := index % 2 == 0
  match item.getProp (js "function"), item.getProp (js "points") with
  | some function, some points =>
    some { children := [itemCell 2800 isEven none function 21,
                        itemCell 4560 isEven none points 21,
                        itemCell 2000 isEven (some .CENTER) (.str (js resultPlaceholder)) 20] }
  | _, _ => none

/-- The rows pushed by `forEach` for the items from `index` on; `none` when a
callback throws. -/
def itemRows : List JsVal → Nat → Option (List TableRow)
  | [], _ => some []
  | item :: rest, index =>
    match itemRow item index with
    | none => none
    | some row => (itemRows rest (index + 1)).map fun rows => row :: rows

/-- The array `tableRows` after `testItems.forEach`; `none` is a TypeError, from a
callback or because `testItems` is not an array and so has no `forEach`. -/
def tableRows (testItems : JsVal) : Option (List TableRow) :=
  match testItems with
  | .arr items => (itemRows items 0).map fun rows => headerRow :: rows
  | _ => none

/-- A shaded label cell of the information table. -/
def labelCell (label : String) : TableCell :=
  { borders := borders
    width := { size := 2340, type := .DXA }
    shading := some { fill := "E8EEF7", type := .CLEAR }
    verticalAlign := none
    margins := { top := 80, bottom := 80, left := 120, right := 120 }
    columnSpan := none
    children := [{ alignment := none
                   children := [{ text := .str (js label), bold := true, color := none,
                                  font := "SimHei", size := 21 }] }] }

/-- A cell of the information table showing a value. -/
def valueCell (width : Nat) (shading : Option Shading) (columnSpan : Option Nat)
    (value : String) : TableCell :=
  { borders := borders
    width := { size := width, type := .DXA }
    shading := shading
    verticalAlign := none
    margins := { top := 80, bottom := 80, left := 120, right := 120 }
    columnSpan := columnSpan
    children := [{ alignment := none
                   children := [{ text := .str (js value), bold := false, color := none,
                                  font := "SimSun", size := 21 }] }] }

/-- The information table at the top of the document. -/
def infoTable (options : Options) : Table :=
  { width := { size := 9360, type := .DXA }
    columnWidths := [2340, 4680, 2340]
    rows :=
      [ { children := [labelCell "产品名称：",
                       valueCell 4680 none none options.product,
                       labelCell "版本号："] },
        { children := [labelCell "测试日期：",
                       valueCell 4680 none none options.date,
                       valueCell 2340 (some { fill := "E8EEF7", type := .CLEAR }) none
                         options.version] },
        { children := [labelCell "测试人员：",
                       valueCell 4680 none (some 2) options.user] } ] }

/-- The checklist table. -/
def itemTable (rows : List TableRow) : Table :=
  { width := { size := 9360, type := .DXA }, columnWidths := colWidths, rows := rows }

/-- The template literal for the output file name. -/
def filename (user : String) : String :=
  "行芯产品验证文档-" ++ user ++ ".docx"

/-- What a completed `createDocument` has produced: the two tables of the written
document and the fields `filename` and `itemCount` of the returned record. -/
structure Created where
  infoTable : Table
  itemTable : Table
  filename : String
  itemCount : Nat

/-- The function `createDocument` up to the hand-over to the encoder and the file
system, which are outside this development. -/
def createDocument (toUpperCase : Char → List Char) (operatorPattern : OperatorPatterns)
    (templates : Option String) (options : Options) : Outcome Created :=
  match loadTemplate toUpperCase operatorPattern templates options.template with
  | .threw => .threw
  | .returned testItems =>
    match testItems, tableRows testItems with
    | .arr items, some rows =>
      .returned { infoTable := infoTable options
                  itemTable := itemTable rows
                  filename := filename options.user
                  itemCount := items.length }
    | _, _ => .threw

/-! ## The catalog format in the words of the specification

The specification describes the catalog as a text of sections, each introduced
by a heading line `## <template-name>` and optionally holding, before the next
heading, a fenced block tagged `json` whose content parses to an object with an
`items` list; heading names are compared without regard to case and the first
heading wins among duplicates.  The definitions of this section follow that
description, not the script. -/

namespace Spec

/-- The lines of a text, split at line feeds. -/
def lines : List Char → List (List Char)
  | [] => [[]]
  | c :: cs =>
    if c == '\n' then [] :: lines cs
    else
      match lines cs with
      | [] => [[c]]
      | l :: ls => (c :: l) :: ls

/-- The template name of a heading line `## <template-name>`. -/
def headingName : List Char → Option (List Char)
  | '#' :: '#' :: ' ' :: name => some name
  | _ => none

/-- A section: the name in its heading line and the text up to the next heading. -/
structure Section where
  name : List Char
  body : List Char

/-- Splits lines into the text before the first heading and the sections. -/
def splitSections : List (List Char) → List Char × List Section
  | [] => ([], [])
  | line :: rest =>
    match headingName line with
    | some name => ([], ⟨name, (splitSections rest).1⟩ :: (splitSections rest).2)
    | none => (line ++ '\n' :: (splitSections rest).1, (splitSections rest).2)

/-- The sections of a catalog, in order. -/
def sections (catalog : String) : List Section :=
  (splitSections (lines catalog.toList)).2

/-- The content of the first fenced block tagged `json` in a section body, up to
the next fence. -/
def payload (toUpperCase : Char → List Char) (body : List Char) : Option (List Char) :=
  match search toUpperCase "```json".toList body with
  | none => none
  | some (_, afterFence) => (search toUpperCase "```".toList afterFence).map fun r => r.1

/-- The `items` list of a section whose block parses to an object with one. -/
def Section.items (toUpperCase : Char → List Char) (s : Section) : Option (List JsVal) :=
  match payload toUpperCase s.body with
  | none => none
  | some p =>
    match JSON.parse (trim p) with
    | some (.obj props) =>
      match JsVal.lookup (js "items") props with
      | some (.arr xs) => some xs
      | _ => none
    | _ => none

/-- Whether a section has a block that fails to parse or parses to a value
without an `items` key. -/
def Section.malformed (toUpperCase : Char → List Char) (s : Section) : Bool :=
  match payload toUpperCase s.body with
  | none => false
  | some p =>
    match JSON.parse (trim p) with
    | none => true
    | some (.obj props) => (JsVal.lookup (js "items") props).isNone
    | some _ => true

/-- Heading names compared without regard to case. -/
def sameName (toUpperCase : Char → List Char) (a b : List Char) : Bool :=
  a.map (Canonicalize toUpperCase) == b.map (Canonicalize toUpperCase)

/-- The first section of the catalog with the given name. -/
def findSection (toUpperCase : Char → List Char) (catalog name : String) : Option Section :=
  (sections catalog).find? fun s => sameName toUpperCase s.name name.toList

/-- The entries of a template that is present in the catalog and valid. -/
def templateItems (toUpperCase : Char → List Char) (catalog name : String) :
    Option (List JsVal) :=
  (findSection toUpperCase catalog name).bind (Section.items toUpperCase)

/-- Whether the catalog has a section of the given name. -/
def hasSection (toUpperCase : Char → List Char) (catalog name : String) : Bool :=
  (findSection toUpperCase catalog name).isSome

end Spec


/-! ## Sample inputs -/

/-- A host table without case pairs outside ASCII; the sample catalogs and names
below are ASCII, where no table is consulted. -/
def noCasePairs : Char → List Char := fun c => [c]

/-- A host answer that rejects every name with operators; the sample names below
have none, so that it is never consulted. -/
def noOperators : OperatorPatterns := fun _ => none

/-- The metadata of scenario D. -/
def scenarioD : Options :=
  { user := "张三", version := "v1.0.0", product := "示例", date := "2024-01-01",
    template := "default", output := "." }

/-- The metadata of scenario D with the template `customized`. -/
def scenarioCustomized : Options :=
  { user := "张三", version := "v1.0.0", product := "示例", date := "2024-01-01",
    template := "customized", output := "." }

/-- The catalog of scenario A: a `default` template with two entries. -/
def catalogA : String :=
  "# templates\n\n## default\n\n```json\n\x7b\n  \"items\": [\n    \x7b\"function\": \"A\", \"points\": \"B\"\x7d,\n    \x7b\"function\": \"C\", \"points\": \"D\"\x7d\n  ]\n\x7d\n```\n"

/-- The metadata of scenario D with the template name `de.ault`. -/
def scenarioDot : Options :=
  { user := "张三", version := "v1.0.0", product := "示例", date := "2024-01-01",
    template := "de.ault", output := "." }

/-- A host answer with the one entry the samples need.  In the pattern of the
name `de.ault` the dot stands for any character but a line terminator, so in the
catalog of scenario A the pattern matches at the heading `## default` and
captures the block of that section, as the pattern of `default` does.  The answer
is not used with another name or catalog. -/
def dotHost : OperatorPatterns := fun templateName =>
  if templateName = "de.ault" then
    some fun content =>
      if content = catalogA then (RegExp.literal defaultPattern).matchAndParse noCasePairs content
      else .noMatch
  else none

/-- A catalog in which the heading `## default` comes before the heading `## def`. -/
def catalogDefaultThenDef : String :=
  "## default\n```json\n\x7b\"items\": [\x7b\"function\": \"A\", \"points\": \"B\"\x7d]\x7d\n```\n## def\n```json\n\x7b\"items\": [\x7b\"function\": \"C\", \"points\": \"D\"\x7d]\x7d\n```\n"

/-- A catalog with a `customized` template before the `default` template. -/
def catalogCustomizedAndDefault : String :=
  "## customized\n```json\n\x7b\"items\": [\x7b\"function\": \"X\", \"points\": \"Y\"\x7d]\x7d\n```\n## default\n```json\n\x7b\"items\": [\x7b\"function\": \"A\", \"points\": \"B\"\x7d]\x7d\n```\n"

/-- A catalog whose only template is `customized`. -/
def catalogCustomizedOnly : String :=
  "## customized\n```json\n\x7b\"items\": [\x7b\"function\": \"X\", \"points\": \"Y\"\x7d]\x7d\n```\n"

/-- A catalog without any template section. -/
def catalogNoSections : String :=
  "# templates\n\nnothing yet\n"

/-- A catalog whose `custom` template is an object without `items`, before a valid
`default` template. -/
def catalogCustomWithoutItems : String :=
  "## custom\n```json\n\x7b\"note\": \"todo\"\x7d\n```\n## default\n```json\n\x7b\"items\": [\x7b\"function\": \"A\", \"points\": \"B\"\x7d]\x7d\n```\n"

/-- A catalog whose `custom` template is malformed JSON, before a valid `default`
template. -/
def catalogCustomMalformed : String :=
  "## custom\n```json\n\x7b\"items\": [\n```\n## default\n```json\n\x7b\"items\": [\x7b\"function\": \"A\", \"points\": \"B\"\x7d]\x7d\n```\n"

/-- A catalog whose `default` template lists no entries. -/
def catalogEmptyItems : String :=
  "## default\n```json\n\x7b\"items\": []\x7d\n```\n"

/-- A catalog whose `default` template has a string where the list should be. -/
def catalogItemsNotAList : String :=
  "## default\n```json\n\x7b\"items\": \"x\"\x7d\n```\n"

/-! ## Checklist and information tables -/

theorem js_points_ne_function : js "points" ≠ js "function" := by decide

theorem getProp_function (e : ChecklistEntry) :
    e.toJs.getProp (js "function") = some (.str (js e.function)) := by
  simp [ChecklistEntry.toJs, JsVal.getProp, JsVal.lookup, js_points_ne_function]

theorem getProp_points (e : ChecklistEntry) :
    e.toJs.getProp (js "points") = some (.str (js e.points)) := by
  simp [ChecklistEntry.toJs, JsVal.getProp, JsVal.lookup]

theorem itemRow_toJs (e : ChecklistEntry) (index : Nat) :
    ∃ row, itemRow e.toJs index = some row ∧
      row.texts = [.str (js e.function), .str (js e.points), .str (js resultPlaceholder)] ∧
      row.shadings = if index % 2 = 0 then [none, none, none]
        else [some alternateFill, some alternateFill, some alternateFill] := by
  refine ⟨_, by simp only [itemRow, getProp_function, getProp_points]; rfl, ?_, ?_⟩
  · simp [TableRow.texts, TableCell.texts, itemCell]
  · by_cases h : index % 2 = 0 <;>
      simp [TableRow.shadings, itemCell, h, alternateFill]

theorem itemRows_toJs (entries : List ChecklistEntry) (index : Nat) :
    ∃ rows, itemRows (entries.map ChecklistEntry.toJs) index = some rows ∧
      rows.length = entries.length ∧
      rows.map TableRow.texts = entries.map (fun e =>
        [JsVal.str (js e.function), .str (js e.points), .str (js resultPlaceholder)]) ∧
      ∀ i, i < entries.length → ∃ row, rows[i]? = some row ∧
        row.shadings = if (index + i) % 2 = 0 then [none, none, none]
          else [some alternateFill, some alternateFill, some alternateFill] := by
  induction entries generalizing index with
  | nil => exact ⟨[], rfl, rfl, rfl, fun i hi => absurd hi (Nat.not_lt_zero i)⟩
  | cons e es ih =>
    obtain ⟨row, hrow, htexts, hshade⟩ := itemRow_toJs e index
    obtain ⟨rows, hrows, hlen, hmap, hidx⟩ := ih (index + 1)
    refine ⟨row :: rows, ?_, ?_, ?_, ?_⟩
    · simp [itemRows, hrow, hrows]
    · simp [hlen]
    · simp [htexts, hmap]
    · intro i hi
      cases i with
      | zero => exact ⟨row, by simp, by simpa using hshade⟩
      | succ j =>
        obtain ⟨r, hr, hs⟩ := hidx j (by simpa using hi)
        refine ⟨r, by simpa using hr, ?_⟩
        rw [hs]
        have : index + 1 + j = index + (j + 1) := by omega
        rw [this]

theorem headerRow_texts :
    headerRow.texts = [.str (js "测试功能点"), .str (js "测试要点"), .str (js "测试结果")] := by
  simp [headerRow, headerCell, TableRow.texts, TableCell.texts]

theorem getProp_eq_none (item : JsVal) (key : JsString) :
    item.getProp key = none ↔ item = .null ∨ item = .undefined := by
  cases item <;> simp [JsVal.getProp]

theorem itemRow_eq_none (item : JsVal) (index : Nat) :
    itemRow item index = none ↔ item = .null ∨ item = .undefined := by
  constructor
  · intro h
    cases hf : item.getProp (js "function") with
    | none => exact (getProp_eq_none item _).1 hf
    | some f =>
      cases hp : item.getProp (js "points") with
      | none => exact (getProp_eq_none item _).1 hp
      | some p => simp [itemRow, hf, hp] at h
  · intro h
    have hf := (getProp_eq_none item (js "function")).2 h
    simp [itemRow, hf]

theorem itemRows_some_iff (items : List JsVal) (index : Nat) :
    (∃ rows, itemRows items index = some rows) ↔
      ∀ x ∈ items, x ≠ JsVal.null ∧ x ≠ JsVal.undefined := by
  induction items generalizing index with
  | nil => simp [itemRows]
  | cons item rest ih =>
    cases hrow : itemRow item index with
    | none =>
      have hnull := (itemRow_eq_none item index).1 hrow
      simp only [itemRows, hrow, List.mem_cons, forall_eq_or_imp]
      constructor
      · rintro ⟨rows, h⟩
        cases h
      · rintro ⟨⟨h1, h2⟩, -⟩
        rcases hnull with h | h
        · exact absurd h h1
        · exact absurd h h2
    | some row =>
      have hnot : ¬ (item = .null ∨ item = .undefined) := by
        intro h
        rw [(itemRow_eq_none item index).2 h] at hrow
        cases hrow
      simp only [itemRows, hrow, List.mem_cons, forall_eq_or_imp, Option.map_eq_some']
      constructor
      · rintro ⟨rows, rows0, h0, -⟩
        exact ⟨⟨fun h => hnot (Or.inl h), fun h => hnot (Or.inr h)⟩, (ih (index + 1)).1 ⟨rows0, h0⟩⟩
      · rintro ⟨-, hrest⟩
        obtain ⟨rows0, h0⟩ := (ih (index + 1)).2 hrest
        exact ⟨row :: rows0, rows0, h0, rfl⟩

theorem createDocument_returned_iff (toUpperCase : Char → List Char)
    (operatorPattern : OperatorPatterns) (templates : Option String) (options : Options)
    (d : Created) :
    createDocument toUpperCase operatorPattern templates options = .returned d ↔
      ∃ items rows,
        loadTemplate toUpperCase operatorPattern templates options.template =
          .returned (.arr items) ∧
        itemRows items 0 = some rows ∧
        d = { infoTable := infoTable options
              itemTable := itemTable (headerRow :: rows)
              filename := filename options.user
              itemCount := items.length } := by
  unfold createDocument
  cases hload : loadTemplate toUpperCase operatorPattern templates options.template with
  | threw => simp
  | returned testItems =>
    cases testItems with
    | arr items =>
      cases hrows : itemRows items 0 with
      | none => simp [tableRows, hrows]
      | some rows =>
        simp only [tableRows, hrows, Option.map_some', Outcome.returned.injEq, JsVal.arr.injEq]
        constructor
        · intro h
          exact ⟨items, rows, rfl, hrows, h.symm⟩
        · rintro ⟨items', rows', h1, h2, h3⟩
          subst h1
          rw [hrows] at h2
          cases h2
          exact h3.symm
    | _ => simp [tableRows]

theorem createDocument_completes_iff (toUpperCase : Char → List Char)
    (operatorPattern : OperatorPatterns) (templates : Option String) (options : Options) :
    (∃ d, createDocument toUpperCase operatorPattern templates options = .returned d) ↔
      ∃ items,
        loadTemplate toUpperCase operatorPattern templates options.template =
          .returned (.arr items) ∧
        ∀ x ∈ items, x ≠ JsVal.null ∧ x ≠ JsVal.undefined := by
  constructor
  · rintro ⟨d, hd⟩
    obtain ⟨items, rows, hload, hrows, -⟩ :=
      (createDocument_returned_iff toUpperCase operatorPattern templates options d).1 hd
    exact ⟨items, hload, (itemRows_some_iff items 0).1 ⟨rows, hrows⟩⟩
  · rintro ⟨items, hload, hall⟩
    obtain ⟨rows, hrows⟩ := (itemRows_some_iff items 0).2 hall
    exact ⟨_, (createDocument_returned_iff toUpperCase operatorPattern templates options _).2
      ⟨items, rows, hload, hrows, rfl⟩⟩

/-- C6: for every list of entries, the empty one included, the array `tableRows`
is the header row with its three fixed titles followed by one row per entry in
entry order, so it has one row more than there are entries, and the row of an
entry shows its `function`, its `points` and the same fixed placeholder; for
every host, catalog state and metadata with which `loadTemplate` hands these
entries to `createDocument`, the call completes and this array is the row list
of the checklist table of the produced document. -/
theorem createDocument_checklist_rows (entries : List ChecklistEntry) :
    (∃ rows, tableRows (.arr (entries.map ChecklistEntry.toJs)) = some rows ∧
      rows.length = entries.length + 1 ∧
      rows.head? = some headerRow ∧
      rows.map TableRow.texts =
        [.str (js "测试功能点"), .str (js "测试要点"), .str (js "测试结果")] ::
          entries.map (fun e =>
            [JsVal.str (js e.function), .str (js e.points), .str (js resultPlaceholder)])) ∧
    ∀ (toUpperCase : Char → List Char) (operatorPattern : OperatorPatterns)
      (templates : Option String) (options : Options),
      loadTemplate toUpperCase operatorPattern templates options.template =
          .returned (.arr (entries.map ChecklistEntry.toJs)) →
      ∃ d, createDocument toUpperCase operatorPattern templates options = .returned d ∧
        tableRows (.arr (entries.map ChecklistEntry.toJs)) = some d.itemTable.rows ∧
        d.itemCount = entries.length := by
  obtain ⟨rows, hrows, hlen, htexts, -⟩ := itemRows_toJs entries 0
  have htable : tableRows (.arr (entries.map ChecklistEntry.toJs)) = some (headerRow :: rows) := by
    simp [tableRows, hrows]
  refine ⟨⟨headerRow :: rows, htable, by simp [hlen], rfl, ?_⟩, ?_⟩
  · simp [htexts, headerRow_texts]
  · intro toUpperCase operatorPattern templates options h
    refine ⟨_, (createDocument_returned_iff toUpperCase operatorPattern templates options _).2
      ⟨_, rows, h, hrows, rfl⟩, ?_, ?_⟩
    · simp [itemTable, htable]
    · simp

/-- Witness of C6, on existing catalogs.  In scenario A the template `default`
has the entries A/B and C/D, and the checklist table of the produced document
has three rows: the titles, then A, B and the placeholder, then C, D and the
placeholder.  With a `default` template without entries the table is the header
row alone. -/
theorem createDocument_checklist_rows_witness :
    (loadTemplate noCasePairs noOperators (some catalogA) scenarioD.template =
        .returned (.arr ([⟨"A", "B"⟩, ⟨"C", "D"⟩].map ChecklistEntry.toJs)) ∧
      ∃ d, createDocument noCasePairs noOperators (some catalogA) scenarioD = .returned d ∧
        d.itemTable.rows.length = 3 ∧
        d.itemTable.rows.map TableRow.texts =
          [ [.str (js "测试功能点"), .str (js "测试要点"), .str (js "测试结果")],
            [.str (js "A"), .str (js "B"), .str (js "□ 通过    □ 失败    □ 待测试")],
            [.str (js "C"), .str (js "D"), .str (js "□ 通过    □ 失败    □ 待测试")] ] ∧
        d.itemCount = 2) ∧
    (loadTemplate noCasePairs noOperators (some catalogEmptyItems) scenarioD.template =
        .returned (.arr (([] : List ChecklistEntry).map ChecklistEntry.toJs)) ∧
      ∃ d, createDocument noCasePairs noOperators (some catalogEmptyItems) scenarioD =
          .returned d ∧
        d.itemTable.rows = [headerRow] ∧ d.itemCount = 0) := by
  constructor
  · obtain ⟨⟨rows, hrows, hlen, -, htexts⟩, hlink⟩ :=
      createDocument_checklist_rows [⟨"A", "B"⟩, ⟨"C", "D"⟩]
    obtain ⟨d, hd, hdrows, hcount⟩ :=
      hlink noCasePairs noOperators (some catalogA) scenarioD rfl
    rw [hrows] at hdrows
    have hsame : rows = d.itemTable.rows := Option.some.inj hdrows
    exact ⟨rfl, d, hd, by rw [← hsame]; exact hlen, by rw [← hsame]; exact htexts, hcount⟩
  · obtain ⟨⟨rows, hrows, -, -, -⟩, hlink⟩ := createDocument_checklist_rows []
    obtain ⟨d, hd, hdrows, hcount⟩ :=
      hlink noCasePairs noOperators (some catalogEmptyItems) scenarioD rfl
    have h : tableRows (.arr (([] : List ChecklistEntry).map ChecklistEntry.toJs)) =
        some [headerRow] := rfl
    rw [h] at hdrows
    exact ⟨rfl, d, hd, (Option.some.inj hdrows).symm, hcount⟩

/-- C9: for every list of entries and every index `i` into it, the row of entry
`i` has no fill on any of its three cells exactly when `i` is even, and has the
alternate fill on all three cells when `i` is odd; the row of index 0 is unfilled
whatever the number of entries. -/
theorem tableRows_shading_parity (entries : List ChecklistEntry) (i : Nat)
    (h : i < entries.length) :
    ∃ rows row row0, tableRows (.arr (entries.map ChecklistEntry.toJs)) = some rows ∧
      rows[i + 1]? = some row ∧
      (row.shadings = [none, none, none] ↔ i % 2 = 0) ∧
      (i % 2 ≠ 0 → row.shadings = [some alternateFill, some alternateFill, some alternateFill]) ∧
      rows[1]? = some row0 ∧ row0.shadings = [none, none, none] := by
  obtain ⟨rows, hrows, hlen, -, hidx⟩ := itemRows_toJs entries 0
  obtain ⟨row, hrow, hshade⟩ := hidx i h
  obtain ⟨row0, hrow0, hshade0⟩ := hidx 0 (by omega)
  refine ⟨headerRow :: rows, row, row0, by simp [tableRows, hrows], by simpa using hrow,
    ?_, ?_, by simpa using hrow0, by simpa using hshade0⟩
  · rw [hshade]
    by_cases hi : i % 2 = 0 <;> simp [hi]
  · intro hi
    rw [hshade]
    simp [hi]

/-- Witness of C9: the second of the six built-in entries, at the odd index 1. -/
theorem tableRows_shading_parity_witness :
    1 < defaultEntries.length ∧
    ∃ rows row row0, tableRows (.arr (defaultEntries.map ChecklistEntry.toJs)) = some rows ∧
      rows[1 + 1]? = some row ∧
      (row.shadings = [none, none, none] ↔ 1 % 2 = 0) ∧
      (1 % 2 ≠ 0 → row.shadings = [some alternateFill, some alternateFill, some alternateFill]) ∧
      rows[1]? = some row0 ∧ row0.shadings = [none, none, none] :=
  ⟨by decide, tableRows_shading_parity defaultEntries 1 (by decide)⟩

/-- C10: for every user string and every host, catalog state and other metadata,
`createDocument` completes exactly when `loadTemplate` returns an array without
a `null` element, and whenever it completes the file name it returns is the
fixed text `行芯产品验证文档-`, then the user string unchanged, then `.docx`,
whatever the product, version, date and template; for the user `张三` it is
`行芯产品验证文档-张三.docx`. -/
theorem createDocument_filename (toUpperCase : Char → List Char)
    (operatorPattern : OperatorPatterns) (templates : Option String) (options : Options) :
    ((∃ d, createDocument toUpperCase operatorPattern templates options = .returned d) ↔
      ∃ items,
        loadTemplate toUpperCase operatorPattern templates options.template =
          .returned (.arr items) ∧
        ∀ x ∈ items, x ≠ JsVal.null ∧ x ≠ JsVal.undefined) ∧
    ∀ d, createDocument toUpperCase operatorPattern templates options = .returned d →
      d.filename = "行芯产品验证文档-" ++ options.user ++ ".docx" ∧
      (options.user = "张三" → d.filename = "行芯产品验证文档-张三.docx") := by
  refine ⟨createDocument_completes_iff toUpperCase operatorPattern templates options, ?_⟩
  intro d h
  obtain ⟨items, rows, -, -, hd⟩ :=
    (createDocument_returned_iff toUpperCase operatorPattern templates options d).1 h
  have hname : d.filename = filename options.user := by rw [hd]
  refine ⟨hname, fun hu => ?_⟩
  rw [hname, hu]
  rfl

/-- Witness of C10: for the user `张三` the file name is
`行芯产品验证文档-张三.docx` in scenario D without a catalog file, with the
catalog of scenario A, with the template `customized` of a catalog that has it,
and with the template name `de.ault`, which holds a pattern operator. -/
theorem createDocument_filename_witness :
    (∃ d, createDocument noCasePairs noOperators none scenarioD = .returned d ∧
      d.filename = "行芯产品验证文档-张三.docx") ∧
    (∃ d, createDocument noCasePairs noOperators (some catalogA) scenarioD = .returned d ∧
      d.filename = "行芯产品验证文档-张三.docx") ∧
    (∃ d, createDocument noCasePairs noOperators (some catalogCustomizedAndDefault)
        scenarioCustomized = .returned d ∧
      d.filename = "行芯产品验证文档-张三.docx") ∧
    (∃ d, createDocument noCasePairs dotHost (some catalogA) scenarioDot = .returned d ∧
      d.filename = "行芯产品验证文档-张三.docx") :=
  ⟨⟨_, rfl, ((createDocument_filename noCasePairs noOperators none scenarioD).2 _ rfl).2 rfl⟩,
   ⟨_, rfl,
    ((createDocument_filename noCasePairs noOperators (some catalogA) scenarioD).2 _ rfl).2 rfl⟩,
   ⟨_, rfl,
    ((createDocument_filename noCasePairs noOperators (some catalogCustomizedAndDefault)
      scenarioCustomized).2 _ rfl).2 rfl⟩,
   ⟨_, rfl,
    ((createDocument_filename noCasePairs dotHost (some catalogA) scenarioDot).2 _ rfl).2 rfl⟩⟩

/-! ## The search behind the template patterns -/

theorem matchHere_sound (toUpperCase : Char → List Char) (pat text rest : List Char)
    (h : matchHere toUpperCase pat text = some rest) :
    ∃ m, text = m ++ rest ∧
      m.map (Canonicalize toUpperCase) = pat.map (Canonicalize toUpperCase) := by
  induction pat generalizing text with
  | nil =>
    simp only [matchHere, Option.some.injEq] at h
    exact ⟨[], by simp [h], rfl⟩
  | cons p ps ih =>
    cases text with
    | nil => simp [matchHere] at h
    | cons t ts =>
      simp only [matchHere] at h
      split at h
      · rename_i hpt
        obtain ⟨m, hm, hcanon⟩ := ih ts h
        exact ⟨t :: m, by simp [hm], by simp [hcanon, hpt]⟩
      · cases h

theorem matchHere_complete (toUpperCase : Char → List Char) (pat m rest : List Char)
    (h : m.map (Canonicalize toUpperCase) = pat.map (Canonicalize toUpperCase)) :
    matchHere toUpperCase pat (m ++ rest) = some rest := by
  induction pat generalizing m with
  | nil =>
    cases m with
    | nil => simp [matchHere]
    | cons a as => simp at h
  | cons p ps ih =>
    cases m with
    | nil => simp at h
    | cons a as =>
      simp only [List.map_cons, List.cons.injEq] at h
      simp [matchHere, h.1, ih as h.2]

theorem search_sound (toUpperCase : Char → List Char) (pat text pre rest : List Char)
    (h : search toUpperCase pat text = some (pre, rest)) :
    ∃ m, text = pre ++ m ++ rest ∧
      m.map (Canonicalize toUpperCase) = pat.map (Canonicalize toUpperCase) := by
  induction text generalizing pre with
  | nil =>
    simp only [search, Option.map_eq_some'] at h
    obtain ⟨r, hr, hpair⟩ := h
    simp only [Prod.mk.injEq] at hpair
    obtain ⟨m, hm, hcanon⟩ := matchHere_sound toUpperCase pat [] r hr
    exact ⟨m, by simp [← hpair.1, ← hpair.2, hm], hcanon⟩
  | cons t ts ih =>
    simp only [search] at h
    split at h
    · rename_i r hr
      simp only [Option.some.injEq, Prod.mk.injEq] at h
      obtain ⟨m, hm, hcanon⟩ := matchHere_sound toUpperCase pat (t :: ts) r hr
      exact ⟨m, by simp [← h.1, ← h.2, hm], hcanon⟩
    · simp only [Option.map_eq_some'] at h
      obtain ⟨⟨p1, r1⟩, hs, hpair⟩ := h
      simp only [Prod.mk.injEq] at hpair
      obtain ⟨hp, hr⟩ := hpair
      subst hr
      obtain ⟨m, hm, hcanon⟩ := ih p1 hs
      exact ⟨m, by simp [← hp, hm], hcanon⟩

theorem search_leftmost (toUpperCase : Char → List Char) (pat text pre rest : List Char)
    (h : search toUpperCase pat text = some (pre, rest)) (a b : List Char)
    (hab : text = a ++ b) (hlt : a.length < pre.length) :
    matchHere toUpperCase pat b = none := by
  induction text generalizing pre a with
  | nil =>
    simp only [search, Option.map_eq_some'] at h
    obtain ⟨r, -, hpair⟩ := h
    simp only [Prod.mk.injEq] at hpair
    rw [← hpair.1] at hlt
    simp at hlt
  | cons t ts ih =>
    simp only [search] at h
    split at h
    · simp only [Option.some.injEq, Prod.mk.injEq] at h
      rw [← h.1] at hlt
      simp at hlt
    · rename_i hnone
      simp only [Option.map_eq_some'] at h
      obtain ⟨⟨p1, r1⟩, hs, hpair⟩ := h
      simp only [Prod.mk.injEq] at hpair
      cases a with
      | nil =>
        simp only [List.nil_append] at hab
        rw [← hab]
        exact hnone
      | cons x xs =>
        simp only [List.cons_append, List.cons.injEq] at hab
        obtain ⟨hp, hr⟩ := hpair
        subst hr
        refine ih p1 hs xs hab.2 ?_
        rw [← hp] at hlt
        simpa using hlt

theorem search_eq_none (toUpperCase : Char → List Char) (pat text : List Char)
    (h : search toUpperCase pat text = none) (a b : List Char) (hab : text = a ++ b) :
    matchHere toUpperCase pat b = none := by
  induction text generalizing a with
  | nil =>
    simp only [search, Option.map_eq_none'] at h
    have hb : b = [] := by
      cases a <;> cases b <;> simp at hab ⊢
    rw [hb]
    exact h
  | cons t ts ih =>
    simp only [search] at h
    split at h
    · cases h
    · rename_i hnone
      simp only [Option.map_eq_none'] at h
      cases a with
      | nil =>
        simp only [List.nil_append] at hab
        rw [← hab]
        exact hnone
      | cons x xs =>
        simp only [List.cons_append, List.cons.injEq] at hab
        exact ih h xs hab.2

theorem exec_eq_none_of_heading_absent (toUpperCase : Char → List Char)
    (re : TemplatePattern) (content : List Char)
    (h : search toUpperCase re.heading content = none) :
    re.exec toUpperCase content = none := by
  simp [TemplatePattern.exec, h]

theorem search_complete (toUpperCase : Char → List Char) (pat pre tail rest : List Char)
    (hmatch : matchHere toUpperCase pat tail = some rest)
    (hfirst : ∀ a b, pre ++ tail = a ++ b → a.length < pre.length →
      matchHere toUpperCase pat b = none) :
    search toUpperCase pat (pre ++ tail) = some (pre, rest) := by
  induction pre with
  | nil =>
    simp only [List.nil_append]
    cases tail with
    | nil => simp [search, hmatch]
    | cons t ts => simp [search, hmatch]
  | cons x xs ih =>
    have hhere : matchHere toUpperCase pat (x :: (xs ++ tail)) = none :=
      hfirst [] (x :: xs ++ tail) (by simp) (by simp)
    have hrest : search toUpperCase pat (xs ++ tail) = some (xs, rest) := by
      refine ih fun a b hab hlt => ?_
      exact hfirst (x :: a) b (by simp [hab]) (by simpa using hlt)
    simp [search, hhere, hrest]

theorem exec_sound (toUpperCase : Char → List Char) (re : TemplatePattern)
    (content captured : List Char)
    (h : re.exec toUpperCase content = some captured) :
    ∃ before heading between fence closing after,
      content = before ++ heading ++ between ++ fence ++ captured ++ closing ++ after ∧
      heading.map (Canonicalize toUpperCase) = re.heading.map (Canonicalize toUpperCase) ∧
      fence.map (Canonicalize toUpperCase) = "```json".toList.map (Canonicalize toUpperCase) ∧
      closing.map (Canonicalize toUpperCase) = "```".toList.map (Canonicalize toUpperCase) := by
  unfold TemplatePattern.exec at h
  split at h
  · cases h
  · rename_i before afterHeading h1
    split at h
    · cases h
    · rename_i between afterFence h2
      split at h
      · cases h
      · rename_i cap after h3
        simp only [Option.some.injEq] at h
        subst h
        obtain ⟨heading, e1, c1⟩ := search_sound _ _ _ _ _ h1
        obtain ⟨fence, e2, c2⟩ := search_sound _ _ _ _ _ h2
        obtain ⟨closing, e3, c3⟩ := search_sound _ _ _ _ _ h3
        refine ⟨before, heading, between, fence, closing, after, ?_, c1, c2, c3⟩
        rw [e1, e2, e3]
        simp [List.append_assoc]


/-! ## The call bound of `JSON.parse` is never reached -/

namespace JSON

theorem skipWs_length_le (cs : List Char) : (skipWs cs).length ≤ cs.length := by
  induction cs with
  | nil => simp [skipWs]
  | cons c cs ih =>
    simp only [skipWs]
    split
    · simp only [List.length_cons]; omega
    · simp

theorem skipWs_cons_length (cs r : List Char) (c : Char) (h : skipWs cs = c :: r) :
    r.length + 1 ≤ cs.length := by
  have := skipWs_length_le cs
  rw [h] at this
  simpa using this

theorem stringBody_length_le (n : Nat) (cs : List Char) (s : JsString) (r : List Char)
    (hn : cs.length ≤ n) (h : stringBody cs = some (s, r)) : r.length ≤ cs.length := by
  induction n generalizing cs s with
  | zero =>
    cases cs with
    | nil => simp [stringBody] at h
    | cons c cs => simp at hn
  | succ n ih =>
    cases cs with
    | nil => simp [stringBody] at h
    | cons c cs =>
      unfold stringBody at h
      split at h
      · simp only [Option.some.injEq, Prod.mk.injEq] at h
        rw [← h.2]
        simp
      · split at h
        · split at h
          · cases h
          · rename_i e rest
            split at h
            · split at h
              · rename_i a b c d rest4
                split at h
                · simp only [Option.map_eq_some'] at h
                  obtain ⟨p, hp, hpair⟩ := h
                  simp only [Prod.mk.injEq] at hpair
                  have := ih rest4 p.1 (by simp at hn ⊢; omega) (by rw [hp, ← hpair.2])
                  simp only [List.length_cons]
                  omega
                · cases h
              · cases h
            · split at h
              · simp only [Option.map_eq_some'] at h
                obtain ⟨p, hp, hpair⟩ := h
                simp only [Prod.mk.injEq] at hpair
                have := ih rest p.1 (by simp at hn ⊢; omega) (by rw [hp, ← hpair.2])
                simp only [List.length_cons]
                omega
              · cases h
        · split at h
          · cases h
          · simp only [Option.map_eq_some'] at h
            obtain ⟨p, hp, hpair⟩ := h
            simp only [Prod.mk.injEq] at hpair
            have := ih cs p.1 (by simpa using hn) (by rw [hp, ← hpair.2])
            simp only [List.length_cons]
            omega

theorem digitsOf_length_le (cs : List Char) : (digitsOf cs).2.length ≤ cs.length := by
  induction cs with
  | nil => simp [digitsOf]
  | cons c cs ih =>
    simp only [digitsOf]
    split
    · simp only [List.length_cons]; omega
    · simp

theorem intPart_length_le (cs : List Char) (ds : List Nat) (r : List Char)
    (h : intPart cs = some (ds, r)) : r.length ≤ cs.length := by
  cases cs with
  | nil => simp [intPart] at h
  | cons c cs =>
    simp only [intPart] at h
    split at h
    · simp only [Option.some.injEq, Prod.mk.injEq] at h
      rw [← h.2]
      simp
    · split at h
      · simp only [Option.some.injEq] at h
        have := digitsOf_length_le (c :: cs)
        rw [h] at this
        exact this
      · cases h

theorem fracPart_length_le (cs : List Char) (ds : List Nat) (r : List Char)
    (h : fracPart cs = some (ds, r)) : r.length ≤ cs.length := by
  unfold fracPart at h
  split at h
  · rename_i r0
    split at h
    · cases h
    · rename_i fs r1 hd
      simp only [Option.some.injEq, Prod.mk.injEq] at h
      have := digitsOf_length_le r0
      rw [hd] at this
      rw [← h.2]
      simp only [List.length_cons]
      simp only at this
      omega
  · simp only [Option.some.injEq, Prod.mk.injEq] at h
    rw [h.2]

theorem expDigits_length_le (cs : List Char) (n : Nat) (r : List Char)
    (h : expDigits cs = some (n, r)) : r.length ≤ cs.length := by
  unfold expDigits at h
  split at h
  · cases h
  · rename_i ds r1 hd
    simp only [Option.some.injEq, Prod.mk.injEq] at h
    have := digitsOf_length_le cs
    rw [hd] at this
    rw [← h.2]
    exact this

theorem expPart_length_le (cs : List Char) (e : Int) (r : List Char)
    (h : expPart cs = some (e, r)) : r.length ≤ cs.length := by
  unfold expPart at h
  split at h
  · simp only [Option.some.injEq, Prod.mk.injEq] at h
    rw [← h.2]
  · rename_i c r0
    split at h
    · split at h
      · simp only [Option.map_eq_some'] at h
        obtain ⟨p, hp, hpair⟩ := h
        simp only [Prod.mk.injEq] at hpair
        have := expDigits_length_le _ p.1 p.2 hp
        rw [← hpair.2]
        simp only [List.length_cons]
        omega
      · simp only [Option.map_eq_some'] at h
        obtain ⟨p, hp, hpair⟩ := h
        simp only [Prod.mk.injEq] at hpair
        have := expDigits_length_le _ p.1 p.2 hp
        rw [← hpair.2]
        simp only [List.length_cons]
        omega
      · simp only [Option.map_eq_some'] at h
        obtain ⟨p, hp, hpair⟩ := h
        simp only [Prod.mk.injEq] at hpair
        have := expDigits_length_le _ p.1 p.2 hp
        rw [← hpair.2]
        simp only [List.length_cons]
        omega
    · simp only [Option.some.injEq, Prod.mk.injEq] at h
      rw [← h.2]

theorem unsignedNumber_length_le (negative : Bool) (cs : List Char) (v : JsVal)
    (r : List Char) (h : unsignedNumber negative cs = some (v, r)) :
    r.length ≤ cs.length := by
  unfold unsignedNumber at h
  split at h
  · cases h
  · rename_i ids r1 h1
    split at h
    · cases h
    · rename_i fs r2 h2
      split at h
      · cases h
      · rename_i e r3 h3
        simp only [Option.some.injEq, Prod.mk.injEq] at h
        have a1 := intPart_length_le _ _ _ h1
        have a2 := fracPart_length_le _ _ _ h2
        have a3 := expPart_length_le _ _ _ h3
        rw [← h.2]
        omega

theorem number_length_le (cs : List Char) (v : JsVal) (r : List Char)
    (h : number cs = some (v, r)) : r.length ≤ cs.length := by
  unfold number at h
  split at h
  · have := unsignedNumber_length_le _ _ _ _ h
    simp only [List.length_cons]
    omega
  · exact unsignedNumber_length_le _ _ _ _ h

theorem literal_length_le (cs : List Char) (v : JsVal) (r : List Char)
    (h : literal cs = some (v, r)) : r.length ≤ cs.length := by
  unfold literal at h
  split at h
  · simp only [Option.some.injEq, Prod.mk.injEq] at h
    rw [← h.2]; simp only [List.length_cons]; omega
  · simp only [Option.some.injEq, Prod.mk.injEq] at h
    rw [← h.2]; simp only [List.length_cons]; omega
  · simp only [Option.some.injEq, Prod.mk.injEq] at h
    rw [← h.2]; simp only [List.length_cons]; omega
  · cases h

theorem value_length_le (fuel : Nat) :
    (∀ cs v r, value fuel cs = some (v, r) → r.length ≤ cs.length) ∧
    (∀ cs vs r, elements fuel cs = some (vs, r) → r.length ≤ cs.length) ∧
    (∀ cs ms r, members fuel cs = some (ms, r) → r.length ≤ cs.length) := by
  induction fuel with
  | zero => simp [value, elements, members]
  | succ f ih =>
    obtain ⟨ihv, ihe, ihm⟩ := ih
    refine ⟨?_, ?_, ?_⟩
    · intro cs v r h
      simp only [value] at h
      split at h
      · cases h
      · rename_i c r0 hskip
        have hc := skipWs_cons_length cs r0 c hskip
        split at h
        · simp only [Option.map_eq_some'] at h
          obtain ⟨p, hp, hpair⟩ := h
          simp only [Prod.mk.injEq] at hpair
          have := stringBody_length_le r0.length r0 p.1 p.2 (Nat.le_refl _) hp
          rw [← hpair.2]
          omega
        · split at h
          · split at h
            · rename_i r2 hskip2
              simp only [Option.some.injEq, Prod.mk.injEq] at h
              have := skipWs_cons_length r0 r2 _ hskip2
              rw [← h.2]
              omega
            · simp only [Option.map_eq_some'] at h
              obtain ⟨p, hp, hpair⟩ := h
              simp only [Prod.mk.injEq] at hpair
              have := ihe _ p.1 p.2 hp
              have := skipWs_length_le r0
              rw [← hpair.2]
              omega
          · split at h
            · split at h
              · rename_i r2 hskip2
                simp only [Option.some.injEq, Prod.mk.injEq] at h
                have := skipWs_cons_length r0 r2 _ hskip2
                rw [← h.2]
                omega
              · simp only [Option.map_eq_some'] at h
                obtain ⟨p, hp, hpair⟩ := h
                simp only [Prod.mk.injEq] at hpair
                have := ihm _ p.1 p.2 hp
                have := skipWs_length_le r0
                rw [← hpair.2]
                omega
            · split at h
              · have := number_length_le _ _ _ h
                simp only [List.length_cons] at this
                omega
              · have := literal_length_le _ _ _ h
                simp only [List.length_cons] at this
                omega
    · intro cs vs r h
      simp only [elements] at h
      split at h
      · cases h
      · rename_i v r0 hv
        have h0 := ihv _ _ _ hv
        split at h
        · rename_i r2 hskip
          simp only [Option.map_eq_some'] at h
          obtain ⟨p, hp, hpair⟩ := h
          simp only [Prod.mk.injEq] at hpair
          have := ihe _ p.1 p.2 hp
          have := skipWs_cons_length r0 r2 _ hskip
          rw [← hpair.2]
          omega
        · rename_i r2 hskip
          simp only [Option.some.injEq, Prod.mk.injEq] at h
          have := skipWs_cons_length r0 r2 _ hskip
          rw [← h.2]
          omega
        · cases h
    · intro cs ms r h
      simp only [members] at h
      split at h
      · rename_i r0 hskip
        have hc := skipWs_cons_length cs r0 _ hskip
        split at h
        · cases h
        · rename_i k r1 hk
          have h1 := stringBody_length_le r0.length r0 k r1 (Nat.le_refl _) hk
          split at h
          · rename_i r2 hskip2
            have h2 := skipWs_cons_length r1 r2 _ hskip2
            split at h
            · cases h
            · rename_i v r3 hv
              have h3 := ihv _ _ _ hv
              split at h
              · rename_i r4 hskip4
                simp only [Option.map_eq_some'] at h
                obtain ⟨p, hp, hpair⟩ := h
                simp only [Prod.mk.injEq] at hpair
                have := ihm _ p.1 p.2 hp
                have := skipWs_cons_length r3 r4 _ hskip4
                rw [← hpair.2]
                omega
              · rename_i r4 hskip4
                simp only [Option.some.injEq, Prod.mk.injEq] at h
                have := skipWs_cons_length r3 r4 _ hskip4
                rw [← h.2]
                omega
              · cases h
          · cases h
      · cases h

theorem fuel_adequate (f : Nat) :
    (∀ cs g, 2 * cs.length + 2 ≤ f → f ≤ g → value f cs = value g cs) ∧
    (∀ cs g, 2 * cs.length + 3 ≤ f → f ≤ g → elements f cs = elements g cs) ∧
    (∀ cs g, 2 * cs.length + 3 ≤ f → f ≤ g → members f cs = members g cs) := by
  induction f with
  | zero =>
    refine ⟨?_, ?_, ?_⟩ <;> intro cs g h <;> omega
  | succ f ih =>
    obtain ⟨ihv, ihe, ihm⟩ := ih
    refine ⟨?_, ?_, ?_⟩
    · intro cs g hf hg
      obtain ⟨g, rfl⟩ : ∃ g', g = g' + 1 := ⟨g - 1, by omega⟩
      simp only [value]
      cases hs : skipWs cs with
      | nil => rfl
      | cons c r0 =>
        have hc := skipWs_cons_length cs r0 c hs
        have he : elements f (skipWs r0) = elements g (skipWs r0) :=
          ihe _ g (by have := skipWs_length_le r0; omega) (by omega)
        have hm : members f (skipWs r0) = members g (skipWs r0) :=
          ihm _ g (by have := skipWs_length_le r0; omega) (by omega)
        simp only []
        split
        · rfl
        · split
          · split
            · rfl
            · rw [he]
          · split
            · split
              · rfl
              · rw [hm]
            · rfl
    · intro cs g hf hg
      obtain ⟨g, rfl⟩ : ∃ g', g = g' + 1 := ⟨g - 1, by omega⟩
      simp only [elements]
      rw [← ihv cs g (by omega) (by omega)]
      cases hv : value f cs with
      | none => rfl
      | some p =>
        obtain ⟨v, r0⟩ := p
        have h0 := (value_length_le f).1 _ _ _ hv
        simp only []
        split
        · rename_i r2 hskip
          have := skipWs_cons_length r0 r2 _ hskip
          rw [ihe r2 g (by omega) (by omega)]
        · rfl
        · rfl
    · intro cs g hf hg
      obtain ⟨g, rfl⟩ : ∃ g', g = g' + 1 := ⟨g - 1, by omega⟩
      simp only [members]
      split
      · rename_i r0 hskip
        have hc := skipWs_cons_length cs r0 _ hskip
        split
        · rfl
        · rename_i k r1 hk
          have h1 := stringBody_length_le r0.length r0 k r1 (Nat.le_refl _) hk
          split
          · rename_i r2 hskip2
            have h2 := skipWs_cons_length r1 r2 _ hskip2
            rw [← ihv r2 g (by omega) (by omega)]
            cases hv : value f r2 with
            | none => rfl
            | some p =>
              obtain ⟨v, r3⟩ := p
              have h3 := (value_length_le f).1 _ _ _ hv
              simp only []
              split
              · rename_i r4 hskip4
                have := skipWs_cons_length r3 r4 _ hskip4
                rw [ihm r4 g (by omega) (by omega)]
              · rfl
              · rfl
          · rfl
      · rfl

/-- The result of `value` does not depend on the call bound once the bound is the
one that `parse` passes: a larger bound gives the same result, so no text is
rejected for want of calls. -/
theorem value_bound_irrelevant (text : List Char) (k : Nat) :
    value (2 * text.length + 2 + k) text = value (2 * text.length + 2) text :=
  ((fuel_adequate (2 * text.length + 2)).1 text (2 * text.length + 2 + k)
    (Nat.le_refl _) (Nat.le_add_right _ _)).symm

end JSON

/-! ## The information table -/

theorem createDocument_infoTable (toUpperCase : Char → List Char)
    (operatorPattern : OperatorPatterns) (templates : Option String)
    (options : Options) (d : Created)
    (h : createDocument toUpperCase operatorPattern templates options = .returned d) :
    d.infoTable = infoTable options := by
  obtain ⟨items, rows, -, -, hd⟩ :=
    (createDocument_returned_iff toUpperCase operatorPattern templates options d).1 h
  rw [hd]

theorem infoTable_texts (options : Options) :
    (infoTable options).rows.map TableRow.texts =
      [ [.str (js "产品名称："), .str (js options.product), .str (js "版本号：")],
        [.str (js "测试日期："), .str (js options.date), .str (js options.version)],
        [.str (js "测试人员："), .str (js options.user)] ] := by
  simp [infoTable, labelCell, valueCell, TableRow.texts, TableCell.texts]

/-- C7, as the code has it: for every metadata record the information table has
exactly three rows.  The first shows the label `产品名称：`, the product value
and the label `版本号：`; the second shows the label `测试日期：`, the date value
and the version value; the third shows the label `测试人员：` and the user value
in a cell spanning two columns.  Every value is the metadata string unchanged,
and the version value is placed once, in the second row.  For every host and
catalog state, `createDocument` completes exactly when `loadTemplate` returns an
array without a `null` element, and the document it produces carries this
table. -/
theorem createDocument_infoTable_rows (options : Options) :
    (infoTable options).rows.map TableRow.texts =
      [ [.str (js "产品名称："), .str (js options.product), .str (js "版本号：")],
        [.str (js "测试日期："), .str (js options.date), .str (js options.version)],
        [.str (js "测试人员："), .str (js options.user)] ] ∧
    (infoTable options).rows.map (fun r => r.children.map fun c => c.columnSpan) =
      [ [none, none, none], [none, none, none], [none, some 2] ] ∧
    ∀ (toUpperCase : Char → List Char) (operatorPattern : OperatorPatterns)
      (templates : Option String),
      ((∃ d, createDocument toUpperCase operatorPattern templates options = .returned d) ↔
        ∃ items,
          loadTemplate toUpperCase operatorPattern templates options.template =
            .returned (.arr items) ∧
          ∀ x ∈ items, x ≠ JsVal.null ∧ x ≠ JsVal.undefined) ∧
      ∀ d, createDocument toUpperCase operatorPattern templates options = .returned d →
        d.infoTable = infoTable options := by
  refine ⟨infoTable_texts options, by simp [infoTable, labelCell, valueCell], ?_⟩
  intro toUpperCase operatorPattern templates
  exact ⟨createDocument_completes_iff toUpperCase operatorPattern templates options,
    fun d h => createDocument_infoTable toUpperCase operatorPattern templates options d h⟩

/-- Witness of C7: the rows of the information table of the document produced in
scenario D with the catalog of scenario A, and the same table for the template
name `de.ault`, which holds a pattern operator. -/
theorem createDocument_infoTable_rows_witness :
    (∃ d, createDocument noCasePairs noOperators (some catalogA) scenarioD = .returned d ∧
      d.infoTable.rows.map TableRow.texts =
        [ [.str (js "产品名称："), .str (js "示例"), .str (js "版本号：")],
          [.str (js "测试日期："), .str (js "2024-01-01"), .str (js "v1.0.0")],
          [.str (js "测试人员："), .str (js "张三")] ] ∧
      d.infoTable.rows.map (fun r => r.children.map fun c => c.columnSpan) =
        [ [none, none, none], [none, none, none], [none, some 2] ]) ∧
    (∃ d, createDocument noCasePairs dotHost (some catalogA) scenarioDot = .returned d ∧
      d.infoTable.rows.map TableRow.texts =
        [ [.str (js "产品名称："), .str (js "示例"), .str (js "版本号：")],
          [.str (js "测试日期："), .str (js "2024-01-01"), .str (js "v1.0.0")],
          [.str (js "测试人员："), .str (js "张三")] ]) := by
  constructor
  · obtain ⟨d, hd⟩ : ∃ d, createDocument noCasePairs noOperators (some catalogA) scenarioD =
        .returned d := ⟨_, rfl⟩
    obtain ⟨htexts, hspans, hlink⟩ := createDocument_infoTable_rows scenarioD
    have htable := (hlink noCasePairs noOperators (some catalogA)).2 d hd
    exact ⟨d, hd, by rw [htable]; exact htexts, by rw [htable]; exact hspans⟩
  · obtain ⟨d, hd⟩ : ∃ d, createDocument noCasePairs dotHost (some catalogA) scenarioDot =
        .returned d := ⟨_, rfl⟩
    obtain ⟨htexts, -, hlink⟩ := createDocument_infoTable_rows scenarioDot
    have htable := (hlink noCasePairs dotHost (some catalogA)).2 d hd
    exact ⟨d, hd, by rw [htable]; exact htexts⟩

/-- C7 as stated fails: in scenario D without a catalog file the document is
produced, yet the first row of the information table does not show the version
value, which stands in the table once and not twice. -/
theorem version_value_not_in_first_row :
    ¬ ∃ (toUpperCase : Char → List Char) (operatorPattern : OperatorPatterns),
      ∀ (templates : Option String) (options : Options) (d : Created),
        createDocument toUpperCase operatorPattern templates options = .returned d →
        ∃ r0 r1 r2, d.infoTable.rows = [r0, r1, r2] ∧
          JsVal.str (js options.product) ∈ r0.texts ∧ JsVal.str (js options.version) ∈ r0.texts ∧
          JsVal.str (js options.date) ∈ r1.texts ∧ JsVal.str (js options.version) ∈ r1.texts ∧
          JsVal.str (js options.user) ∈ r2.texts := by
  rintro ⟨toUpperCase, operatorPattern, hall⟩
  obtain ⟨d, hd⟩ : ∃ d, createDocument toUpperCase operatorPattern none scenarioD =
      .returned d := ⟨_, rfl⟩
  obtain ⟨r0, r1, r2, hrows, -, hver, -⟩ := hall _ _ d hd
  have htexts := infoTable_texts scenarioD
  rw [← createDocument_infoTable _ _ _ _ d hd, hrows] at htexts
  simp only [List.map_cons, List.map_nil, List.cons.injEq] at htexts
  rw [htexts.1] at hver
  simp only [List.mem_cons, List.mem_singleton, JsVal.str.injEq, List.not_mem_nil,
    or_false] at hver
  revert hver
  decide


/-! ## Template resolution -/

theorem templatePattern_literal (operatorPattern : OperatorPatterns) (templateName : String)
    (hname : isLiteralName templateName = true) :
    templatePattern operatorPattern templateName =
      some (.literal (namePattern templateName)) := by
  simp [templatePattern, hname]

theorem tryBlock_literal (toUpperCase : Char → List Char) (re : TemplatePattern)
    (content : String) :
    tryBlock ((RegExp.literal re).matchAndParse toUpperCase content) =
      (re.exec toUpperCase content.toList).bind tryItems := by
  simp only [RegExp.matchAndParse]
  cases re.exec toUpperCase content.toList <;> rfl

theorem loadTemplate_literal (toUpperCase : Char → List Char)
    (operatorPattern : OperatorPatterns) (content templateName : String)
    (hname : isLiteralName templateName = true) :
    loadTemplate toUpperCase operatorPattern (some content) templateName =
      match ((namePattern templateName).exec toUpperCase content.toList).bind tryItems with
      | some items => .returned items
      | none =>
        if templateName ≠ "default" then
          match (defaultPattern.exec toUpperCase content.toList).bind tryItems with
          | some items => .returned items
          | none => .returned getDefaultItems
        else .returned getDefaultItems := by
  simp only [loadTemplate, templatePattern_literal operatorPattern templateName hname,
    tryBlock_literal]

theorem tryItems_items_list (captured : List Char) (props : List (JsString × JsVal))
    (items : List JsVal) (hparse : JSON.parse (trim captured) = some (.obj props))
    (hitems : JsVal.lookup (js "items") props = some (.arr items)) :
    tryItems captured = some (.arr items) := by
  simp [tryItems, tryBlock, itemsOrDefault, hparse, JsVal.getProp, hitems, JsVal.truthy]

/-- C1, as the code has it: for every catalog text and every template name free
of pattern-special characters, if the leftmost occurrence of the text `## <name>`
in the catalog, compared without regard to case and wherever it stands, is
followed by a `json` fence, and the text between the first such fence and the
next fence parses to an object whose `items` is a list, then `loadTemplate`
returns exactly that list, in catalog order. -/
theorem loadTemplate_requested_block (toUpperCase : Char → List Char)
    (operatorPattern : OperatorPatterns)
    (content templateName : String) (captured : List Char)
    (props : List (JsString × JsVal)) (items : List JsVal)
    (hname : isLiteralName templateName = true)
    (hexec : (namePattern templateName).exec toUpperCase content.toList = some captured)
    (hparse : JSON.parse (trim captured) = some (.obj props))
    (hitems : JsVal.lookup (js "items") props = some (.arr items)) :
    loadTemplate toUpperCase operatorPattern (some content) templateName = .returned (.arr items) := by
  rw [loadTemplate_literal toUpperCase operatorPattern content templateName hname, hexec]
  simp [tryItems_items_list captured props items hparse hitems]

/-- Witness of C1, scenario A: the catalog has `## default` with the entries A/B
and C/D, and the template `default` resolves to these two, in order. -/
theorem loadTemplate_requested_block_witness :
    loadTemplate noCasePairs noOperators (some catalogA) "default" =
      .returned (.arr [ChecklistEntry.toJs ⟨"A", "B"⟩, ChecklistEntry.toJs ⟨"C", "D"⟩]) :=
  loadTemplate_requested_block noCasePairs noOperators catalogA "default"
    "\n\x7b\n  \"items\": [\n    \x7b\"function\": \"A\", \"points\": \"B\"\x7d,\n    \x7b\"function\": \"C\", \"points\": \"D\"\x7d\n  ]\n\x7d\n".toList
    [(js "items", .arr [ChecklistEntry.toJs ⟨"A", "B"⟩, ChecklistEntry.toJs ⟨"C", "D"⟩])]
    [ChecklistEntry.toJs ⟨"A", "B"⟩, ChecklistEntry.toJs ⟨"C", "D"⟩] rfl rfl rfl rfl

theorem toJs_AB_ne_CD :
    ChecklistEntry.toJs ⟨"A", "B"⟩ ≠ ChecklistEntry.toJs ⟨"C", "D"⟩ := by
  simp only [ChecklistEntry.toJs, ne_eq, JsVal.obj.injEq, List.cons.injEq, Prod.mk.injEq,
    JsVal.str.injEq]
  decide

theorem toJs_XY_ne_AB :
    ChecklistEntry.toJs ⟨"X", "Y"⟩ ≠ ChecklistEntry.toJs ⟨"A", "B"⟩ := by
  simp only [ChecklistEntry.toJs, ne_eq, JsVal.obj.injEq, List.cons.injEq, Prod.mk.injEq,
    JsVal.str.injEq]
  decide

/-- C1 as stated fails: the template `def` is present and valid in the catalog
with the entry C/D, but the text `## def` first occurs inside the earlier heading
`## default`, and `loadTemplate` returns the entry A/B of that other section,
whatever the case table of the host. -/
theorem def_resolves_to_default_section :
    ¬ ∃ (toUpperCase : Char → List Char) (operatorPattern : OperatorPatterns),
      ∀ (catalog templateName : String) (items : List JsVal),
        Spec.templateItems toUpperCase catalog templateName = some items →
        loadTemplate toUpperCase operatorPattern (some catalog) templateName = .returned (.arr items) := by
  rintro ⟨toUpperCase, operatorPattern, hall⟩
  have h := hall catalogDefaultThenDef "def" [ChecklistEntry.toJs ⟨"C", "D"⟩] rfl
  have hcode : loadTemplate toUpperCase operatorPattern (some catalogDefaultThenDef) "def" =
      .returned (.arr [ChecklistEntry.toJs ⟨"A", "B"⟩]) := rfl
  rw [hcode] at h
  simp only [Outcome.returned.injEq, JsVal.arr.injEq, List.cons.injEq, and_true] at h
  exact toJs_AB_ne_CD h

/-- C2, as the code has it: for every catalog text and every template name free
of pattern-special characters and other than `default`, if the pattern of the
name finds no block (as when the text `## <name>` occurs nowhere in the catalog)
and the leftmost occurrence of `## default` is followed by a `json` block that
parses to an object whose `items` is a list, then `loadTemplate` returns that
list, in order, and not the built-in set. -/
theorem loadTemplate_default_block (toUpperCase : Char → List Char)
    (operatorPattern : OperatorPatterns)
    (content templateName : String) (captured : List Char)
    (props : List (JsString × JsVal)) (items : List JsVal)
    (hname : isLiteralName templateName = true)
    (hne : templateName ≠ "default")
    (habsent : (namePattern templateName).exec toUpperCase content.toList = none)
    (hexec : defaultPattern.exec toUpperCase content.toList = some captured)
    (hparse : JSON.parse (trim captured) = some (.obj props))
    (hitems : JsVal.lookup (js "items") props = some (.arr items)) :
    loadTemplate toUpperCase operatorPattern (some content) templateName = .returned (.arr items) := by
  rw [loadTemplate_literal toUpperCase operatorPattern content templateName hname, habsent, hexec]
  simp [hne, tryItems_items_list captured props items hparse hitems]

/-- Witness of C2: the catalog of scenario A has no `custom` template, and the
template `custom` resolves to the two entries of `default`. -/
theorem loadTemplate_default_block_witness :
    loadTemplate noCasePairs noOperators (some catalogA) "custom" =
      .returned (.arr [ChecklistEntry.toJs ⟨"A", "B"⟩, ChecklistEntry.toJs ⟨"C", "D"⟩]) :=
  loadTemplate_default_block noCasePairs noOperators catalogA "custom"
    "\n\x7b\n  \"items\": [\n    \x7b\"function\": \"A\", \"points\": \"B\"\x7d,\n    \x7b\"function\": \"C\", \"points\": \"D\"\x7d\n  ]\n\x7d\n".toList
    [(js "items", .arr [ChecklistEntry.toJs ⟨"A", "B"⟩, ChecklistEntry.toJs ⟨"C", "D"⟩])]
    [ChecklistEntry.toJs ⟨"A", "B"⟩, ChecklistEntry.toJs ⟨"C", "D"⟩]
    rfl (by decide) (by set_option maxRecDepth 8000 in rfl) rfl rfl rfl

/-- C2 as stated fails: the catalog has no section named `custom` and has a valid
`default` section with the entry A/B, but the text `## custom` occurs inside the
heading `## customized`, and `loadTemplate` returns the entry X/Y of that
section instead of the entries of `default`, whatever the case table of the host. -/
theorem custom_resolves_to_customized_not_default :
    ¬ ∃ (toUpperCase : Char → List Char) (operatorPattern : OperatorPatterns),
      ∀ (catalog templateName : String) (items : List JsVal),
        Spec.hasSection toUpperCase catalog templateName = false →
        Spec.templateItems toUpperCase catalog "default" = some items →
        loadTemplate toUpperCase operatorPattern (some catalog) templateName = .returned (.arr items) := by
  rintro ⟨toUpperCase, operatorPattern, hall⟩
  have h := hall catalogCustomizedAndDefault "custom"
    [ChecklistEntry.toJs ⟨"A", "B"⟩] rfl rfl
  have hcode : loadTemplate toUpperCase operatorPattern (some catalogCustomizedAndDefault) "custom" =
      .returned (.arr [ChecklistEntry.toJs ⟨"X", "Y"⟩]) := rfl
  rw [hcode] at h
  simp only [Outcome.returned.injEq, JsVal.arr.injEq, List.cons.injEq, and_true] at h
  exact toJs_XY_ne_AB h

theorem loadTemplate_literal_returns (toUpperCase : Char → List Char)
    (operatorPattern : OperatorPatterns)
    (templates : Option String) (templateName : String)
    (hname : isLiteralName templateName = true) :
    ∃ v, loadTemplate toUpperCase operatorPattern templates templateName = .returned v := by
  cases templates with
  | none => exact ⟨_, rfl⟩
  | some content =>
    rw [loadTemplate_literal toUpperCase operatorPattern content templateName hname]
    split
    · exact ⟨_, rfl⟩
    · split
      · split
        · exact ⟨_, rfl⟩
        · exact ⟨_, rfl⟩
      · exact ⟨_, rfl⟩


theorem getDefaultItems_nonempty : ∃ x xs, getDefaultItems = .arr (x :: xs) :=
  ⟨_, _, rfl⟩

/-- C3, as the code has it: `loadTemplate` returns exactly the array of
`getDefaultItems`, whose entries are the six built-in ones in their fixed order,
for every template name when the catalog file does not exist, and for every
template name free of pattern-special characters when the catalog exists but
neither the pattern of the name nor the pattern of `default` finds a block in it,
a block being an occurrence of the heading text anywhere in the catalog, compared
without regard to case, with a `json` fence and a closing fence after it. -/
theorem loadTemplate_builtin_when_unresolved (toUpperCase : Char → List Char)
    (operatorPattern : OperatorPatterns)
    (templates : Option String) (templateName : String)
    (h : templates = none ∨ ∃ content, templates = some content ∧
      isLiteralName templateName = true ∧
      (namePattern templateName).exec toUpperCase content.toList = none ∧
      defaultPattern.exec toUpperCase content.toList = none) :
    loadTemplate toUpperCase operatorPattern templates templateName = .returned getDefaultItems ∧
    getDefaultItems = .arr (defaultEntries.map ChecklistEntry.toJs) ∧
    defaultEntries.length = 6 := by
  refine ⟨?_, rfl, rfl⟩
  rcases h with h | ⟨content, hc, hname, habsent, hdefault⟩
  · rw [h]
    rfl
  · rw [hc, loadTemplate_literal toUpperCase operatorPattern content templateName hname, habsent, hdefault]
    simp

/-- Witness of C3: scenario C, no catalog file, and scenario B, a catalog with
neither a `custom` nor a `default` section. -/
theorem loadTemplate_builtin_when_unresolved_witness :
    (loadTemplate noCasePairs noOperators none "custom" = .returned getDefaultItems ∧
      getDefaultItems = .arr (defaultEntries.map ChecklistEntry.toJs) ∧
      defaultEntries.length = 6) ∧
    (loadTemplate noCasePairs noOperators (some catalogNoSections) "custom" = .returned getDefaultItems ∧
      getDefaultItems = .arr (defaultEntries.map ChecklistEntry.toJs) ∧
      defaultEntries.length = 6) :=
  ⟨loadTemplate_builtin_when_unresolved noCasePairs noOperators none "custom" (Or.inl rfl),
   loadTemplate_builtin_when_unresolved noCasePairs noOperators (some catalogNoSections) "custom"
    (Or.inr ⟨catalogNoSections, rfl, rfl, rfl, rfl⟩)⟩

/-- C3 as stated fails: the catalog has neither a section named `custom` nor a
section named `default`, but the text `## custom` occurs inside its heading
`## customized`, and `loadTemplate` returns the entry of that section instead of
the six built-in entries, whatever the case table of the host. -/
theorem custom_resolves_to_customized_not_builtin :
    ¬ ∃ (toUpperCase : Char → List Char) (operatorPattern : OperatorPatterns),
      ∀ (catalog templateName : String),
        Spec.hasSection toUpperCase catalog templateName = false →
        Spec.hasSection toUpperCase catalog "default" = false →
        loadTemplate toUpperCase operatorPattern (some catalog) templateName = .returned getDefaultItems := by
  rintro ⟨toUpperCase, operatorPattern, hall⟩
  have h := hall catalogCustomizedOnly "custom" rfl rfl
  have hcode : loadTemplate toUpperCase operatorPattern (some catalogCustomizedOnly) "custom" =
      .returned (.arr [ChecklistEntry.toJs ⟨"X", "Y"⟩]) := rfl
  rw [hcode] at h
  simp [getDefaultItems, defaultEntries] at h

/-- C4 fails on the code: with an existing catalog the name `(` makes the
constructor of the template pattern throw, outside any `try`, so the exception
leaves `loadTemplate`; and a template whose `items` is the string `x` makes
`loadTemplate` return that string, which is no sequence of entries and on which
`createDocument` then throws. -/
theorem loadTemplate_not_total (toUpperCase : Char → List Char)
    (operatorPattern : OperatorPatterns) :
    loadTemplate toUpperCase operatorPattern (some catalogNoSections) "(" = .threw ∧
    loadTemplate toUpperCase operatorPattern (some catalogItemsNotAList) "default" = .returned (.str (js "x")) ∧
    createDocument toUpperCase operatorPattern (some catalogItemsNotAList) scenarioD = .threw :=
  ⟨rfl, rfl, rfl⟩

theorem tryItems_eq_none (captured : List Char)
    (h : JSON.parse (trim captured) = none ∨ JSON.parse (trim captured) = some .null) :
    tryItems captured = none := by
  rcases h with h | h <;> simp [tryItems, tryBlock, itemsOrDefault, h, JsVal.getProp]

theorem tryItems_falsy (captured : List Char) (template v : JsVal)
    (hparse : JSON.parse (trim captured) = some template)
    (hprop : template.getProp (js "items") = some v) (hv : v.truthy = false) :
    tryItems captured = some getDefaultItems := by
  simp [tryItems, tryBlock, itemsOrDefault, hparse, hprop, hv]

/-- C5, as the code has it, for a template name free of pattern-special
characters and other than `default` whose pattern captures a payload.  When the
payload fails to parse, or parses to `null`, the name is treated as not found:
the result is the `items` list of the `default` block when that block parses to
an object with such a list, the six built-in entries when the pattern of
`default` finds no block, and in every case the result for any catalog with the
same `default` block in which the pattern of the name finds nothing.  When the
payload parses to a value whose `items` is missing or falsy, the result is the
six built-in entries at once, whatever the `default` section holds. -/
theorem loadTemplate_broken_payload (toUpperCase : Char → List Char)
    (operatorPattern : OperatorPatterns)
    (content templateName : String) (captured : List Char)
    (hname : isLiteralName templateName = true)
    (hne : templateName ≠ "default")
    (hexec : (namePattern templateName).exec toUpperCase content.toList = some captured) :
    ((JSON.parse (trim captured) = none ∨ JSON.parse (trim captured) = some .null) →
      (∀ c props items, defaultPattern.exec toUpperCase content.toList = some c →
        JSON.parse (trim c) = some (.obj props) →
        JsVal.lookup (js "items") props = some (.arr items) →
        loadTemplate toUpperCase operatorPattern (some content) templateName = .returned (.arr items)) ∧
      (defaultPattern.exec toUpperCase content.toList = none →
        loadTemplate toUpperCase operatorPattern (some content) templateName = .returned getDefaultItems) ∧
      (∀ other : String,
        (namePattern templateName).exec toUpperCase other.toList = none →
        defaultPattern.exec toUpperCase other.toList =
          defaultPattern.exec toUpperCase content.toList →
        loadTemplate toUpperCase operatorPattern (some other) templateName =
          loadTemplate toUpperCase operatorPattern (some content) templateName)) ∧
    (∀ template v, JSON.parse (trim captured) = some template →
      template.getProp (js "items") = some v → v.truthy = false →
      loadTemplate toUpperCase operatorPattern (some content) templateName = .returned getDefaultItems) := by
  constructor
  · intro hbad
    have htry := tryItems_eq_none captured hbad
    refine ⟨?_, ?_, ?_⟩
    · intro c props items hc hparse hitems
      rw [loadTemplate_literal toUpperCase operatorPattern content templateName hname, hexec, hc]
      simp [htry, hne, tryItems_items_list c props items hparse hitems]
    · intro hc
      rw [loadTemplate_literal toUpperCase operatorPattern content templateName hname, hexec, hc]
      simp [htry]
    · intro other habsent hsame
      rw [loadTemplate_literal toUpperCase operatorPattern content templateName hname,
        loadTemplate_literal toUpperCase operatorPattern other templateName hname, hexec, habsent, hsame]
      simp [htry]
  · intro template v hparse hprop hv
    rw [loadTemplate_literal toUpperCase operatorPattern content templateName hname, hexec]
    simp [tryItems_falsy captured template v hparse hprop hv]

/-- Witness of C5: with a valid `default` template A/B in the catalog, a `custom`
template that is malformed JSON resolves to A/B, and a `custom` template that is
an object without `items` resolves to the six built-in entries. -/
theorem loadTemplate_broken_payload_witness :
    loadTemplate noCasePairs noOperators (some catalogCustomMalformed) "custom" =
      .returned (.arr [ChecklistEntry.toJs ⟨"A", "B"⟩]) ∧
    loadTemplate noCasePairs noOperators (some catalogCustomWithoutItems) "custom" =
      .returned getDefaultItems :=
  ⟨((loadTemplate_broken_payload noCasePairs noOperators catalogCustomMalformed "custom"
      "\n\x7b\"items\": [\n".toList rfl (by decide) rfl).1 (Or.inl rfl)).1
      "\n\x7b\"items\": [\x7b\"function\": \"A\", \"points\": \"B\"\x7d]\x7d\n".toList
      [(js "items", .arr [ChecklistEntry.toJs ⟨"A", "B"⟩])] [ChecklistEntry.toJs ⟨"A", "B"⟩]
      rfl rfl rfl,
   (loadTemplate_broken_payload noCasePairs noOperators catalogCustomWithoutItems "custom"
      "\n\x7b\"note\": \"todo\"\x7d\n".toList rfl (by decide) rfl).2
      (.obj [(js "note", .str (js "todo"))]) .undefined rfl rfl rfl⟩

/-- C5 as stated fails: the `custom` section of the catalog holds an object
without `items` and the `default` section is valid with the entry A/B, yet
`loadTemplate` returns the six built-in entries and not the entry of `default`,
whatever the case table of the host. -/
theorem missing_items_skips_default_section :
    ¬ ∃ (toUpperCase : Char → List Char) (operatorPattern : OperatorPatterns),
      ∀ (catalog templateName : String),
        templateName ≠ "default" →
        (Spec.findSection toUpperCase catalog templateName).map
            (Spec.Section.malformed toUpperCase) = some true →
        loadTemplate toUpperCase operatorPattern (some catalog) templateName =
          .returned (match Spec.templateItems toUpperCase catalog "default" with
            | some items => .arr items
            | none => getDefaultItems) := by
  rintro ⟨toUpperCase, operatorPattern, hall⟩
  have h := hall catalogCustomWithoutItems "custom" (by decide) rfl
  have hcode : loadTemplate toUpperCase operatorPattern (some catalogCustomWithoutItems) "custom" =
      .returned getDefaultItems := rfl
  have hspec : Spec.templateItems toUpperCase catalogCustomWithoutItems "default" =
      some [ChecklistEntry.toJs ⟨"A", "B"⟩] := rfl
  rw [hcode, hspec] at h
  simp [getDefaultItems, defaultEntries] at h

theorem tryBlock_some (m : Matched) (v : JsVal) (h : tryBlock m = some v) :
    v = getDefaultItems ∨ ∃ template, m = .parsed (some template) ∧
      template.getProp (js "items") = some v ∧ v.truthy = true := by
  cases m with
  | noMatch => simp [tryBlock] at h
  | parsed t =>
    cases t with
    | none => simp [tryBlock] at h
    | some template =>
      simp only [tryBlock, itemsOrDefault] at h
      cases hprop : template.getProp (js "items") with
      | none => simp [hprop] at h
      | some items =>
        simp only [hprop, Option.some.injEq] at h
        by_cases ht : items.truthy = true
        · simp only [ht, if_true] at h
          subst h
          exact Or.inr ⟨template, rfl, hprop, ht⟩
        · simp only [ht] at h
          exact Or.inl h.symm

/-- C8, as the code has it: for every catalog state and every template name for
which `loadTemplate` returns, the result is either the array of the six built-in
entries, which is not empty, or the truthy `items` value of the payload that the
pattern of the name or the pattern of `default` captures, handed on unchanged, so
that an empty `items` list gives an empty result. -/
theorem loadTemplate_result_origin (toUpperCase : Char → List Char)
    (operatorPattern : OperatorPatterns)
    (templates : Option String) (templateName : String) (v : JsVal)
    (h : loadTemplate toUpperCase operatorPattern templates templateName = .returned v) :
    (v = getDefaultItems ∧ ∃ x xs, v = .arr (x :: xs)) ∨
    ∃ content re template, templates = some content ∧
      (templatePattern operatorPattern templateName = some re ∨
        re = .literal defaultPattern) ∧
      re.matchAndParse toUpperCase content = .parsed (some template) ∧
      template.getProp (js "items") = some v ∧ v.truthy = true := by
  have hbuiltin : ∀ w, w = getDefaultItems → (w = getDefaultItems ∧ ∃ x xs, w = .arr (x :: xs)) :=
    fun w hw => ⟨hw, by rw [hw]; exact getDefaultItems_nonempty⟩
  cases templates with
  | none =>
    simp only [loadTemplate, Outcome.returned.injEq] at h
    exact Or.inl (hbuiltin v h.symm)
  | some content =>
    simp only [loadTemplate] at h
    cases hre : templatePattern operatorPattern templateName with
    | none => simp [hre] at h
    | some re =>
      simp only [hre] at h
      cases h1 : tryBlock (re.matchAndParse toUpperCase content) with
      | some w =>
        simp only [h1, Outcome.returned.injEq] at h
        subst h
        rcases tryBlock_some _ _ h1 with hv | ⟨template, hm, hprop, ht⟩
        · exact Or.inl (hbuiltin _ hv)
        · exact Or.inr ⟨content, re, template, rfl, Or.inl rfl, hm, hprop, ht⟩
      | none =>
        simp only [h1] at h
        split at h
        · cases h2 : tryBlock ((RegExp.literal defaultPattern).matchAndParse toUpperCase content)
            with
          | some w =>
            simp only [h2, Outcome.returned.injEq] at h
            subst h
            rcases tryBlock_some _ _ h2 with hv | ⟨template, hm, hprop, ht⟩
            · exact Or.inl (hbuiltin _ hv)
            · exact Or.inr ⟨content, _, template, rfl, Or.inr rfl, hm, hprop, ht⟩
          | none =>
            simp only [h2, Outcome.returned.injEq] at h
            exact Or.inl (hbuiltin v h.symm)
        · simp only [Outcome.returned.injEq] at h
          exact Or.inl (hbuiltin v h.symm)

/-- Witness of C8: a `default` template with an empty `items` list resolves to the
empty list, which is the truthy `items` value of its payload. -/
theorem loadTemplate_result_origin_witness :
    loadTemplate noCasePairs noOperators (some catalogEmptyItems) "default" =
      .returned (.arr []) ∧
    ((JsVal.arr [] = getDefaultItems ∧ ∃ x xs, JsVal.arr [] = .arr (x :: xs)) ∨
    ∃ content re template, some catalogEmptyItems = some content ∧
      (templatePattern noOperators "default" = some re ∨ re = .literal defaultPattern) ∧
      re.matchAndParse noCasePairs content = .parsed (some template) ∧
      template.getProp (js "items") = some (.arr []) ∧ (JsVal.arr []).truthy = true) :=
  ⟨rfl, loadTemplate_result_origin noCasePairs noOperators (some catalogEmptyItems) "default"
    (.arr []) rfl⟩

/-- C8 as stated fails: a `default` template with an empty `items` list makes
`loadTemplate` return the empty list, whatever the case table of the host. -/
theorem empty_items_list_is_returned :
    ¬ ∃ (toUpperCase : Char → List Char) (operatorPattern : OperatorPatterns),
      ∀ (templates : Option String) (templateName : String) (v : JsVal),
        loadTemplate toUpperCase operatorPattern templates templateName = .returned v →
        ∃ x xs, v = .arr (x :: xs) := by
  rintro ⟨toUpperCase, operatorPattern, hall⟩
  obtain ⟨x, xs, h⟩ := hall (some catalogEmptyItems) "default" (.arr []) rfl
  simp at h


end XingxinTestDoc
